import Mathlib

/-!
A shallow embedding of `AssureDependence.py` (the "Enterprise Dependency
Scanner" of the DependencyChecker repository).

Modelling conventions:
* Python strings are Lean `String` (manipulated through `List Char`);
* Python dicts are association lists in insertion order, with the
  replace-in-place update semantics of `dict.__setitem__` / `dict.update`;
* every OS interaction (winreg, subprocess, psutil, the filesystem) is a
  field of an explicit environment record, and a Python exception raised by
  such a probe is an `Except` error value;
* the regular expressions of the source are translated into explicit
  character-list matchers with the same leftmost / greedy behaviour.
-/

/-- Python exception classes that the source distinguishes in its handlers. -/
inductive PyExc where
  | fileNotFound
  | accessDenied
  | noSuchProcess
  | timeoutExpired
  | permissionDenied
  | osFailure
  | otherExc
  deriving DecidableEq

/-- A Python value stored in one of the scanner's record dicts. -/
inductive PyVal where
  | str (s : String)
  | int (n : Int)
  | pynone
  deriving DecidableEq

/-- Python `str.lower()` (the paths and names handled here are ASCII). -/
def strToLower (s : String) : String := String.mk (s.toList.map Char.toLower)

/-- `listStarts s p` is Python `s.startswith(p)` on exploded strings. -/
def listStarts : List Char → List Char → Bool
  | _, [] => true
  | [], _ :: _ => false
  | c :: s, p :: ps => if p = c then listStarts s ps else false

/-- Python `s.startswith(p)`. -/
def strStartsWith (s p : String) : Bool := listStarts s.toList p.toList

/-- Python `s.endswith(p)`. -/
def strEndsWith (s p : String) : Bool := listStarts s.toList.reverse p.toList.reverse

/-- Python `needle in hay` (substring containment). -/
def containsSub : List Char → List Char → Bool
  | [], needle => listStarts [] needle
  | c :: rest, needle =>
    if listStarts (c :: rest) needle then true else containsSub rest needle

/-- Python `s.split(sep)` for a one-character separator; empty pieces kept. -/
def splitOnCh (sep : Char) : List Char → List (List Char)
  | [] => [[]]
  | c :: rest =>
    if c = sep then [] :: splitOnCh sep rest
    else
      match splitOnCh sep rest with
      | [] => [[c]]
      | g :: gs => (c :: g) :: gs

/-- Python `s.split(sep)` on `String`. -/
def pySplit (sep : Char) (s : String) : List String := (splitOnCh sep s.toList).map String.mk

/-- Value of a run of decimal digits, allowing the single `_` digit grouping
that Python's `int` accepts between digits. -/
def digitsVal : List Char → Nat → Option Nat
  | [], acc => some acc
  | c :: rest, acc =>
    if c.isDigit then digitsVal rest (acc * 10 + (c.toNat - 48))
    else if c = '_' then
      match rest with
      | [] => none
      | d :: _ => if d.isDigit then digitsVal rest acc else none
    else none

/-- A non-empty digit run (first character must be a digit). -/
def parseUDigits : List Char → Option Nat
  | [] => none
  | c :: rest => if c.isDigit then digitsVal rest (c.toNat - 48) else none

/-- Python `s.strip()` used implicitly by `int()` (ASCII whitespace). -/
def stripWs (s : List Char) : List Char :=
  ((s.dropWhile Char.isWhitespace).reverse.dropWhile Char.isWhitespace).reverse

/-- Python `int(s)` in base 10: optional surrounding whitespace, optional
sign, a digit run; `None` models a raised `ValueError`. -/
def pyInt (s : String) : Option Int :=
  match stripWs s.toList with
  | '-' :: rest => (parseUDigits rest).map (fun n => -(n : Int))
  | '+' :: rest => (parseUDigits rest).map (fun n => (n : Int))
  | rest => (parseUDigits rest).map (fun n => (n : Int))

/-- `check_java_eol`: `'EOL' if int(v.split('.')[1]) < 11 else 'Supported'`,
any exception (missing component or failed parse) giving `'Unknown'`. -/
def check_java_eol (v : String) : String :=
  match (pySplit '.' v)[1]? with
  | none => "Unknown"
  | some comp =>
    match pyInt comp with
    | none => "Unknown"
    | some n => if n < 11 then "EOL" else "Supported"

/-- The `eol_versions` list literal of `check_dotnet_core_eol`.  In the
source the last element is written `'6.0' '7.0'`, two adjacent string
literals, which Python concatenates into the single string `'6.07.0'`. -/
def eol_versions : List String :=
  ["1.0", "1.1", "2.0", "2.1", "2.2", "3.0", "3.1", "5.0", "6.07.0"]

/-- `check_dotnet_core_eol`: EOL when the version starts with an entry of
`eol_versions`. -/
def check_dotnet_core_eol (v : String) : String :=
  if eol_versions.any (fun p => strStartsWith v p) then "EOL" else "Supported"

/-- `check_mssql_eol`: EOL when the integer major version is below 13. -/
def check_mssql_eol (v : String) : String :=
  match pyInt ((pySplit '.' v).headD "") with
  | none => "Unknown"
  | some major => if major < 13 then "EOL" else "Supported"

/-- `check_mysql_eol`: EOL when the version starts with `'5.'` (the guarded
expression cannot raise, so the `'Unknown'` branch of the source is dead). -/
def check_mysql_eol (v : String) : String :=
  if strStartsWith v "5." then "EOL" else "Supported"

/-- `check_postgresql_eol`: EOL when the integer major version is below 12. -/
def check_postgresql_eol (v : String) : String :=
  match pyInt ((pySplit '.' v).headD "") with
  | none => "Unknown"
  | some major => if major < 12 then "EOL" else "Supported"

/-- A record dict (`str` keys, insertion order preserved). -/
abbrev PyDict : Type := List (String × PyVal)

/-- Python `d[k] = v`: replace the value in place when the key exists,
otherwise append the new pair. -/
def dictInsert {A : Type} : List (String × A) → String → A → List (String × A)
  | [], k, v => [(k, v)]
  | (k1, v1) :: rest, k, v =>
    if k1 = k then (k, v) :: rest else (k1, v1) :: dictInsert rest k v

/-- Python `d1.update(d2)`: insert every pair of `d2` into `d1`, in order. -/
def dictUpdate {A : Type} (d1 d2 : List (String × A)) : List (String × A) :=
  d2.foldl (fun acc kv => dictInsert acc kv.1 kv.2) d1

/-- Python `d.get(k)` / `d[k]` lookup (first matching key). -/
def lookupD {A : Type} : List (String × A) → String → Option A
  | [], _ => none
  | (k1, v1) :: rest, k => if k1 = k then some v1 else lookupD rest k

/-- The keys of an association-list dict. -/
def dictKeys {A : Type} (d : List (String × A)) : List String := d.map Prod.fst

/-! ### Path helpers (pathlib fragments used by the source) -/

/-- Index of the last `'.'` of a name, if any. -/
def lastDotIdx (s : List Char) : Option Nat :=
  match s.reverse.findIdx? (fun c => c = '.') with
  | none => none
  | some j => some (s.length - 1 - j)

/-- `PurePath.suffix` of a final path component: the part from the last dot,
unless that dot is the first or the last character. -/
def pathSuffix (n : String) : String :=
  let l := n.toList
  match lastDotIdx l with
  | none => ""
  | some i => if 0 < i ∧ i < l.length - 1 then String.mk (l.drop i) else ""

/-- `PurePath.stem`: the final component without its suffix. -/
def pathStem (n : String) : String :=
  String.mk (n.toList.take (n.toList.length - (pathSuffix n).toList.length))

/-- `str(Path(...))` from its `parts` tuple: the drive-root part already ends
with a separator, later parts are joined with `'\'`. -/
def joinParts : List String → String
  | [] => "."
  | p :: rest =>
    if strEndsWith p "\\" then p ++ String.intercalate "\\" rest
    else String.intercalate "\\" (p :: rest)

/-- `Path(binpath).parent.parent` on a Windows service binary path, modelled
by splitting on `'\'` and dropping up to two final components. -/
def parentParent (p : String) : String :=
  let parts := pySplit '\\' p
  let drop1 := if parts.length ≤ 1 then parts else parts.dropLast
  let drop2 := if drop1.length ≤ 1 then drop1 else drop1.dropLast
  String.intercalate "\\" drop2

/-! ### Regular-expression fragments

Each `re` pattern of the source is translated into an explicit matcher with
the same leftmost-search and greedy behaviour (none of the patterns involved
needs genuine backtracking: every repeated class excludes its delimiter).
-/

/-- Consume an exact pattern: `some` of the remaining input on success. -/
def dropPre : List Char → List Char → Option (List Char)
  | [], s => some s
  | _ :: _, [] => none
  | p :: ps, c :: s => if p = c then dropPre ps s else none

/-- One alternative of the `coreclr` pattern: after `\dotnet\shared\` has
been consumed, try `app` (one of the two `microsoft.….app` alternatives),
then `\`, a non-empty segment without `\` (the version), then
`\coreclr.dll`.  Returns the captured `(app, version)`. -/
def appSeg (app : String) (s1 : List Char) : Option (String × String) :=
  match dropPre app.toList s1 with
  | none => none
  | some s2 =>
    match dropPre ['\\'] s2 with
    | none => none
    | some s3 =>
      let seg := s3.takeWhile (fun c => ¬ c = '\\')
      if seg.length = 0 then none
      else if listStarts (s3.drop seg.length) "\\coreclr.dll".toList then
        some (app, String.mk seg)
      else none

/-- The anchored `coreclr` pattern
`\\dotnet\\shared\\(microsoft\.(?:netcore|aspnetcore)\.app)\\([^\\]+)\\coreclr\.dll`
tried at the head of the input. -/
def matchCoreAt (s : List Char) : Option (String × String) :=
  match dropPre "\\dotnet\\shared\\".toList s with
  | none => none
  | some s1 =>
    match appSeg "microsoft.netcore.app" s1 with
    | some r => some r
    | none => appSeg "microsoft.aspnetcore.app" s1

/-- `re.search` of the `coreclr` pattern: leftmost occurrence. -/
def searchCore : List Char → Option (String × String)
  | [] => none
  | c :: rest =>
    match matchCoreAt (c :: rest) with
    | some r => some r
    | none => searchCore rest

/-- The `'.'.split`-and-`[-2]` step of the version annotation:
`group(1).split('.')[-2]` (e.g. `netcore` from `microsoft.netcore.app`). -/
def dotIdxNeg2 (app : String) : String :=
  let l := pySplit '.' app
  (l[l.length - 2]?).getD ""

/-- A maximal digit run. -/
def digitsTake (s : List Char) : List Char := s.takeWhile Char.isDigit

/-- The pattern `(\d+\.\d+\.\d+)` tried at the head of the input. -/
def matchV3At (s : List Char) : Option (List Char) :=
  let d1 := digitsTake s
  if d1 = [] then none else
  match s.drop d1.length with
  | '.' :: r1 =>
    let d2 := digitsTake r1
    if d2 = [] then none else
    match r1.drop d2.length with
    | '.' :: r2 =>
      let d3 := digitsTake r2
      if d3 = [] then none else some (d1 ++ '.' :: (d2 ++ '.' :: d3))
    | _ => none
  | _ => none

/-- `re.search(r"(\d+\.\d+\.\d+)", s)` (MySQL service version). -/
def searchV3 : List Char → Option (List Char)
  | [] => none
  | c :: rest =>
    match matchV3At (c :: rest) with
    | some r => some r
    | none => searchV3 rest

/-- The pattern `(\d+(\.\d+)?)` tried at the head of the input. -/
def matchVOAt (s : List Char) : Option (List Char) :=
  let d1 := digitsTake s
  if d1 = [] then none else
  match s.drop d1.length with
  | '.' :: r1 =>
    let d2 := digitsTake r1
    if d2 = [] then some d1 else some (d1 ++ '.' :: d2)
  | _ => some d1

/-- `re.search(r"(\d+(\.\d+)?)", s)` (PostgreSQL service version). -/
def searchVO : List Char → Option (List Char)
  | [] => none
  | c :: rest =>
    match matchVOAt (c :: rest) with
    | some r => some r
    | none => searchVO rest

/-- Index of the last occurrence of a character. -/
def lastIdxOf (s : List Char) (c : Char) : Option Nat :=
  match s.reverse.findIdx? (fun x => x = c) with
  | none => none
  | some j => some (s.length - 1 - j)

/-- `re.match(r'([^\s]+)\s+([^\s]+)\s+\[(.*)\]', line)` for one line of
`dotnet --list-runtimes` output: two whitespace-delimited tokens followed by
a bracketed path (the greedy `(.*)` capture runs to the last `]`). -/
def parseRuntimeLine (line : List Char) : Option (String × String × String) :=
  let t1 := line.takeWhile (fun c => ¬ c.isWhitespace)
  if t1 = [] then none else
  let r1 := line.drop t1.length
  let w1 := r1.takeWhile Char.isWhitespace
  if w1 = [] then none else
  let r2 := r1.drop w1.length
  let t2 := r2.takeWhile (fun c => ¬ c.isWhitespace)
  if t2 = [] then none else
  let r3 := r2.drop t2.length
  let w2 := r3.takeWhile Char.isWhitespace
  if w2 = [] then none else
  match r3.drop w2.length with
  | '[' :: inner =>
    match lastIdxOf inner ']' with
    | none => none
    | some i => some (String.mk t1, String.mk t2, String.mk (inner.take i))
  | _ => none

/-- `re.search(r'version "([^"]+)"', out)` tried at the head of the input. -/
def matchJavaVerAt (s : List Char) : Option String :=
  match dropPre "version \"".toList s with
  | none => none
  | some s1 =>
    let seg := s1.takeWhile (fun c => ¬ c = '"')
    if seg.length = 0 then none
    else if listStarts (s1.drop seg.length) "\"".toList then some (String.mk seg)
    else none

/-- Leftmost `version "…"` capture in `java -version` output. -/
def searchJavaVer : List Char → Option String
  | [] => none
  | c :: rest =>
    match matchJavaVerAt (c :: rest) with
    | some r => some r
    | none => searchJavaVer rest

/-- Python `str.splitlines` (restricted to `\n`, `\r\n`, `\r`). -/
def splitLinesAux : List Char → List Char → List String
  | [], cur => if cur = [] then [] else [String.mk cur.reverse]
  | '\r' :: '\n' :: rest, cur => String.mk cur.reverse :: splitLinesAux rest []
  | '\r' :: rest, cur => String.mk cur.reverse :: splitLinesAux rest []
  | '\n' :: rest, cur => String.mk cur.reverse :: splitLinesAux rest []
  | c :: rest, cur => splitLinesAux rest (c :: cur)

/-- `out.splitlines()`. -/
def splitLines (s : String) : List String := splitLinesAux s.toList []

/-- Truthiness of `line.strip()`: some non-whitespace character remains. -/
def stripTruthy (line : String) : Bool := line.toList.any (fun c => ¬ c.isWhitespace)

/-! ### The OS environment -/

/-- A Windows service as seen through `psutil.win_service_iter`: its name is
available, while `display_name()` and `binpath()` can raise. -/
structure SvcEntry where
  name : String
  display_name : Except PyExc String
  binpath : Except PyExc String

/-- A filesystem entry as seen through `Path.iterdir`.  A directory whose
`accessible` flag is false raises `PermissionError`/`OSError` when iterated. -/
inductive FSItem where
  | file (name : String)
  | dir (name : String) (accessible : Bool) (children : List FSItem)
  | other (name : String)

/-- A running process as seen through `psutil.process_iter(['pid', 'name',
'exe', 'cmdline'])`: the prefetched `info` fields, the result of
`memory_maps()` (a list of module paths, or a raised exception), and the
result of running `<exe> -version` as a subprocess. -/
structure ProcEntry where
  pid : Int
  name : String
  exe : Option String
  memory_maps : Except PyExc (List String)
  javaProbe : Except PyExc (Int × String)

/-- Everything the scanner reads from the operating system. -/
structure ScanEnv where
  /-- Subkey names below `SOFTWARE\JavaSoft\Java Runtime Environment`, or the
  exception raised while opening/enumerating the key. -/
  javaRegistry : Except PyExc (List String)
  /-- `QueryValueEx(version_key, "JavaHome")` for a version subkey. -/
  javaHome : String → Except PyExc String
  /-- `subprocess.run(['dotnet', '--list-runtimes'], ...)`: return code and
  stdout, or the raised exception (`FileNotFoundError`, `TimeoutExpired`, ...). -/
  dotnetRun : Except PyExc (Int × String)
  /-- `(name, inst_id)` value pairs below `...\Instance Names\SQL`. -/
  mssqlInstances : Except PyExc (List (String × String))
  /-- `CurrentVersion` of one instance id. -/
  mssqlCurrentVersion : String → Except PyExc String
  /-- `SQLDataRoot` of one instance id. -/
  mssqlDataRoot : String → Except PyExc String
  /-- `psutil.win_service_iter()`. -/
  services : Except PyExc (List SvcEntry)
  /-- `C:/Program Files` (`None` when `exists()` is false; otherwise the
  directory's accessibility and children). -/
  programFiles : Option (Bool × List FSItem)
  /-- `C:/Program Files (x86)`. -/
  programFilesX86 : Option (Bool × List FSItem)
  /-- `C:/ProgramData`. -/
  programData : Option (Bool × List FSItem)
  /-- `psutil.process_iter(...)`. -/
  processes : List ProcEntry
  /-- `str(psutil.boot_time())`. -/
  boot_time : String

/-! ### Framework detectors -/

/-- The record stored for one detected Java installation. -/
def javaRec (version home : String) : PyDict :=
  [("version", PyVal.str version), ("path", PyVal.str home),
   ("type", PyVal.str "java"), ("eol_status", PyVal.str (check_java_eol version))]

/-- The registry loop of `detect_java_installations`: a `FileNotFoundError`
from a version subkey continues the loop, any other exception falls to the
outer handler, which returns what was accumulated so far. -/
def javaLoop (env : ScanEnv) : List String → List (String × PyDict) → List (String × PyDict)
  | [], acc => acc
  | v :: rest, acc =>
    match env.javaHome v with
    | Except.ok home => javaLoop env rest (dictInsert acc ("Java " ++ v) (javaRec v home))
    | Except.error PyExc.fileNotFound => javaLoop env rest acc
    | Except.error _ => acc

/-- `detect_java_installations`: the whole body is wrapped in
`try/except Exception`, so the detector itself never raises. -/
def detect_java_installations (env : ScanEnv) : List (String × PyDict) :=
  match env.javaRegistry with
  | Except.error _ => []
  | Except.ok versions => javaLoop env versions []

/-- The record stored for one `dotnet --list-runtimes` line. -/
def dotnetRec (runtime version path : String) : PyDict :=
  [("version", PyVal.str version), ("runtime", PyVal.str runtime),
   ("path", PyVal.str path), ("type", PyVal.str "dotnet_core"),
   ("eol_status", PyVal.str (check_dotnet_core_eol version))]

/-- The line loop of `detect_dotnet_core`. -/
def dotnetLoop : List String → List (String × PyDict) → List (String × PyDict)
  | [], acc => acc
  | line :: rest, acc =>
    if stripTruthy line then
      match parseRuntimeLine line.toList with
      | some (runtime, version, path) =>
        dotnetLoop rest
          (dictInsert acc (runtime ++ " " ++ version) (dotnetRec runtime version path))
      | none => dotnetLoop rest acc
    else dotnetLoop rest acc

/-- `detect_dotnet_core`: only `FileNotFoundError` is caught; any other
exception raised by `subprocess.run` propagates out of the detector. -/
def detect_dotnet_core (env : ScanEnv) : Except PyExc (List (String × PyDict)) :=
  match env.dotnetRun with
  | Except.error PyExc.fileNotFound => Except.ok []
  | Except.error e => Except.error e
  | Except.ok (rc, out) =>
    Except.ok (if rc = 0 then dotnetLoop (splitLines out) [] else [])

/-- The record stored for one SQL Server instance. -/
def mssqlRec (version path : String) : PyDict :=
  [("version", PyVal.str version), ("path", PyVal.str path),
   ("type", PyVal.str "mssql"), ("eol_status", PyVal.str (check_mssql_eol version))]

/-- `f"Microsoft SQL Server {version.split('.')[0]} (Instance: {name})"`. -/
def mssqlKey (version name : String) : String :=
  "Microsoft SQL Server " ++ (pySplit '.' version).headD "" ++ " (Instance: " ++ name ++ ")"

/-- The instance loop of `detect_sql_server_instances`: the inner `try`
catches only `FileNotFoundError` (continue); any other exception falls to
the outer handler, which returns what was accumulated so far. -/
def mssqlLoop (env : ScanEnv) :
    List (String × String) → List (String × PyDict) → List (String × PyDict)
  | [], acc => acc
  | (name, instId) :: rest, acc =>
    match env.mssqlCurrentVersion instId with
    | Except.error PyExc.fileNotFound => mssqlLoop env rest acc
    | Except.error _ => acc
    | Except.ok version =>
      match env.mssqlDataRoot instId with
      | Except.error PyExc.fileNotFound => mssqlLoop env rest acc
      | Except.error _ => acc
      | Except.ok path =>
        mssqlLoop env rest (dictInsert acc (mssqlKey version name) (mssqlRec version path))

/-- `detect_sql_server_instances` never raises. -/
def detect_sql_server_instances (env : ScanEnv) : List (String × PyDict) :=
  match env.mssqlInstances with
  | Except.error _ => []
  | Except.ok entries => mssqlLoop env entries []

/-- The record stored for one MySQL service. -/
def mysqlRec (version path : String) : PyDict :=
  [("version", PyVal.str version), ("path", PyVal.str path),
   ("type", PyVal.str "mysql"), ("eol_status", PyVal.str (check_mysql_eol version))]

/-- The service loop of `detect_mysql_instances`: the inner `try` catches
`psutil.AccessDenied` and `FileNotFoundError` (continue); any other
exception falls to the outer handler. -/
def mysqlLoop (env : ScanEnv) : List SvcEntry → List (String × PyDict) → List (String × PyDict)
  | [], acc => acc
  | s :: rest, acc =>
    if strStartsWith (strToLower s.name) "mysql" then
      match s.display_name with
      | Except.error PyExc.accessDenied => mysqlLoop env rest acc
      | Except.error PyExc.fileNotFound => mysqlLoop env rest acc
      | Except.error _ => acc
      | Except.ok dn =>
        match s.binpath with
        | Except.error PyExc.accessDenied => mysqlLoop env rest acc
        | Except.error PyExc.fileNotFound => mysqlLoop env rest acc
        | Except.error _ => acc
        | Except.ok bp =>
          let version := (searchV3 (dn ++ bp).toList).map String.mk |>.getD "Unknown"
          mysqlLoop env rest
            (dictInsert acc ("MySQL Server " ++ version) (mysqlRec version (parentParent bp)))
    else mysqlLoop env rest acc

/-- `detect_mysql_instances` never raises. -/
def detect_mysql_instances (env : ScanEnv) : List (String × PyDict) :=
  match env.services with
  | Except.error _ => []
  | Except.ok svcs => mysqlLoop env svcs []

/-- The record stored for one PostgreSQL service. -/
def postgresRec (version path : String) : PyDict :=
  [("version", PyVal.str version), ("path", PyVal.str path),
   ("type", PyVal.str "postgresql"),
   ("eol_status", PyVal.str (check_postgresql_eol version))]

/-- The service loop of `detect_postgresql_instances`; the version regex is
applied to `service.name() + service.display_name()`. -/
def postgresLoop (env : ScanEnv) :
    List SvcEntry → List (String × PyDict) → List (String × PyDict)
  | [], acc => acc
  | s :: rest, acc =>
    if strStartsWith (strToLower s.name) "postgresql" then
      match s.display_name with
      | Except.error PyExc.accessDenied => postgresLoop env rest acc
      | Except.error PyExc.fileNotFound => postgresLoop env rest acc
      | Except.error _ => acc
      | Except.ok dn =>
        let version := (searchVO (s.name ++ dn).toList).map String.mk |>.getD "Unknown"
        match s.binpath with
        | Except.error PyExc.accessDenied => postgresLoop env rest acc
        | Except.error PyExc.fileNotFound => postgresLoop env rest acc
        | Except.error _ => acc
        | Except.ok bp =>
          postgresLoop env rest
            (dictInsert acc ("PostgreSQL " ++ version) (postgresRec version (parentParent bp)))
    else postgresLoop env rest acc

/-- `detect_postgresql_instances` never raises. -/
def detect_postgresql_instances (env : ScanEnv) : List (String × PyDict) :=
  match env.services with
  | Except.error _ => []
  | Except.ok svcs => postgresLoop env svcs []

/-- `detect_sql_databases`: `{}` updated with the MSSQL, MySQL and
PostgreSQL results, in that order. -/
def detect_sql_databases (env : ScanEnv) : List (String × PyDict) :=
  dictUpdate
    (dictUpdate (dictUpdate [] (detect_sql_server_instances env))
      (detect_mysql_instances env))
    (detect_postgresql_instances env)

/-- `detect_frameworks`: `frameworks = {}` updated with the Java, .NET Core
and SQL results, in that order.  An uncaught exception of
`detect_dotnet_core` propagates (the Java detector, evaluated first in the
source, is total, so sequencing it after the `Except` match is faithful). -/
def detect_frameworks (env : ScanEnv) : Except PyExc (List (String × PyDict)) :=
  match detect_dotnet_core env with
  | Except.error e => Except.error e
  | Except.ok dotnet_versions =>
    Except.ok
      (dictUpdate
        (dictUpdate (dictUpdate [] (detect_java_installations env)) dotnet_versions)
        (detect_sql_databases env))

/-! ### Installed-application static scan -/

/-- `get_application_name(file_path)` on the `parts` tuple of the path:
`parts[1]`/`parts[2]` probes with `IndexError` falling back to the stem. -/
def get_application_name (parts : List String) : String :=
  let stem := pathStem (parts.getLastD "")
  match parts.get? 1 with
  | none => stem
  | some p1 =>
    if containsSub (strToLower p1).toList "program files".toList then
      (parts.get? 2).getD stem
    else if containsSub (strToLower p1).toList "windowsapps".toList then
      match parts.get? 2 with
      | none => stem
      | some p2 => (pySplit '_' p2).headD ""
    else stem

/-- `analyze_file_dependencies`: the record appended to
`self.dependencies['java']` for a `.jar` file. -/
def analyze_file_dependencies (parts : List String) : PyDict :=
  [("app", PyVal.str (get_application_name parts)),
   ("file", PyVal.str (joinParts parts)),
   ("framework", PyVal.str "Java Runtime"),
   ("detection_method", PyVal.str "static_analysis"),
   ("confidence", PyVal.str "high")]

/-- One `iterdir` pass of `scan_directory_for_dependencies`, parameterised
by the recursive call used for subdirectories (which the source invokes with
`max_depth - 1`): `.jar` files are analyzed, non-hidden directories are
recursed into, other entries are skipped. -/
def scanItemsWith (recur : List String → Bool → List FSItem → List PyDict)
    (dirParts : List String) : List FSItem → List PyDict
  | [] => []
  | FSItem.file n :: rest =>
    (if strToLower (pathSuffix n) = ".jar" then [analyze_file_dependencies (dirParts ++ [n])]
     else []) ++ scanItemsWith recur dirParts rest
  | FSItem.dir n a ch :: rest =>
    (if strStartsWith n "." then [] else recur (dirParts ++ [n]) a ch)
      ++ scanItemsWith recur dirParts rest
  | FSItem.other _ :: rest => scanItemsWith recur dirParts rest

/-- `scan_directory_for_dependencies` at a given `max_depth`: return at once
when `max_depth <= 0`; a `PermissionError`/`OSError` from `iterdir`
(an inaccessible directory) is swallowed by the `except ... pass`. -/
def scanDepth : Nat → List String → Bool → List FSItem → List PyDict
  | 0 => fun _ _ _ => []
  | Nat.succ md => fun dirParts accessible children =>
    if accessible then scanItemsWith (scanDepth md) dirParts children else []

/-- `scan_directory_for_dependencies(directory, max_depth)` where
`dirParts` is the `parts` tuple of `directory`. -/
def scan_directory_for_dependencies (dirParts : List String) (accessible : Bool)
    (children : List FSItem) (max_depth : Nat) : List PyDict :=
  scanDepth max_depth dirParts accessible children

/-- One root of `scan_installed_applications` (`if prog_dir.exists(): ...`),
scanned with the default `max_depth=3`. -/
def scanRoot (parts : List String) : Option (Bool × List FSItem) → List PyDict
  | none => []
  | some (a, ch) => scan_directory_for_dependencies parts a ch 3

/-- `Path("C:/Program Files").parts`. -/
def programFilesParts : List String := ["C:\\", "Program Files"]

/-- `Path("C:/Program Files (x86)").parts`. -/
def programFilesX86Parts : List String := ["C:\\", "Program Files (x86)"]

/-- `Path("C:/ProgramData").parts`. -/
def programDataParts : List String := ["C:\\", "ProgramData"]

/-- The records appended (all under the `'java'` category) by
`scan_installed_applications`, in order. -/
def scan_installed_applications_records (env : ScanEnv) : List PyDict :=
  scanRoot programFilesParts env.programFiles
    ++ scanRoot programFilesX86Parts env.programFilesX86
    ++ scanRoot programDataParts env.programData

/-! ### Running-process scan -/

/-- Truthiness of `proc.info['exe']` (`None` and `''` are falsy). -/
def pyTruthyOpt : Option String → Bool
  | none => false
  | some s => ¬ s = ""

/-- The body of the `memory_maps` loop of
`get_dotnet_core_version_from_process` for a single module path: first the
`coreclr` regex (yielding `f"{version} ({app.split('.')[-2]})"`), then the
self-contained fallback (`'coreclr.dll' in path and 'microsoft.net' not in
path`); `none` when neither branch returns. -/
def moduleHit (p : ProcEntry) (dllPath : String) : Option (String × String) :=
  let path_lower := strToLower dllPath
  match searchCore path_lower.toList with
  | some (app, ver) => some (ver ++ " (" ++ dotIdxNeg2 app ++ ")", dllPath)
  | none =>
    if containsSub path_lower.toList "coreclr.dll".toList
        && ! containsSub path_lower.toList "microsoft.net".toList then
      some ("Self-Contained (" ++ p.name ++ ")", dllPath)
    else none

/-- The `for dll in proc.memory_maps()` loop: return on the first module
for which a branch fires. -/
def scanMaps (p : ProcEntry) : List String → Option (String × String)
  | [] => none
  | q :: rest =>
    match moduleHit p q with
    | some r => some r
    | none => scanMaps p rest

/-- `get_dotnet_core_version_from_process`: `psutil.AccessDenied` and
`psutil.NoSuchProcess` from `memory_maps()` are caught (giving
`(None, None)`); any other exception propagates to the caller. -/
def get_dotnet_core_version_from_process (p : ProcEntry) :
    Except PyExc (Option (String × String)) :=
  match p.memory_maps with
  | Except.ok paths => Except.ok (scanMaps p paths)
  | Except.error PyExc.accessDenied => Except.ok none
  | Except.error PyExc.noSuchProcess => Except.ok none
  | Except.error e => Except.error e

/-- `is_java_process`. -/
def is_java_process (p : ProcEntry) : Bool :=
  strToLower p.name = "java.exe" ∨ strToLower p.name = "javaw.exe"

/-- `detect_java_version_from_process`: run `<exe> -version` and capture
`version "..."`; on any failure return `"Unknown"` together with
`proc.info.get('exe', 'Unknown')` (which is `None` when the prefetched
`exe` is `None`, since the key itself is present). -/
def detect_java_version_from_process (p : ProcEntry) : String × PyVal :=
  match p.exe with
  | none => ("Unknown", PyVal.pynone)
  | some exe =>
    if exe = "" then ("Unknown", PyVal.str exe)
    else
      match p.javaProbe with
      | Except.error _ => ("Unknown", PyVal.str exe)
      | Except.ok (rc, out) =>
        if rc = 0 then
          match searchJavaVer out.toList with
          | some v => (v, PyVal.str exe)
          | none => ("Unknown", PyVal.str exe)
        else ("Unknown", PyVal.str exe)

/-- `analyze_running_process`: the `(category, record)` pairs appended to
`self.dependencies`.  The whole body is `try/except Exception: pass`, so an
uncaught exception from `get_dotnet_core_version_from_process` (raised
before anything is appended) contributes nothing. -/
def analyze_running_process (p : ProcEntry) : List (String × PyDict) :=
  match p.exe with
  | none => []
  | some exe =>
    if exe = "" then []
    else
      match get_dotnet_core_version_from_process p with
      | Except.error _ => []
      | Except.ok found =>
        (match found with
         | some (dv, dp) =>
           [("dotnet_runtime",
             [("app", PyVal.str p.name), ("pid", PyVal.int p.pid),
              ("file", PyVal.str exe),
              ("framework", PyVal.str (".NET Core Runtime " ++ dv)),
              ("dependency_path", PyVal.str dp),
              ("detection_method", PyVal.str "runtime_analysis"),
              ("confidence", PyVal.str "high"), ("status", PyVal.str "running")])]
         | none => []) ++
        (if is_java_process p then
           [("java_runtime",
             [("app", PyVal.str p.name), ("pid", PyVal.int p.pid),
              ("file", PyVal.str exe),
              ("framework",
               PyVal.str ("Java Runtime " ++ (detect_java_version_from_process p).1)),
              ("dependency_path", (detect_java_version_from_process p).2),
              ("detection_method", PyVal.str "runtime_analysis"),
              ("confidence", PyVal.str "high"), ("status", PyVal.str "running")])]
         else [])

/-- `scan_running_processes`: analyze every process whose prefetched `exe`
is truthy (per-process `psutil` errors are caught and skip the process). -/
def scan_running_processes_records (env : ScanEnv) : List (String × PyDict) :=
  (env.processes.map (fun p => if pyTruthyOpt p.exe then analyze_running_process p else [])).flatten

/-! ### Scanner state, the report, and the orchestrator -/

/-- The mutable state of a `DependencyScanner` instance. -/
structure ScanState where
  /-- `self.dependencies` (a `defaultdict(list)` of categorized records). -/
  dependencies : List (String × List PyDict)
  /-- `self.running_processes` (assigned `{}` and never written again). -/
  running_processes : List (String × PyVal)
  /-- `self.installed_frameworks`. -/
  installed_frameworks : List (String × PyDict)

/-- The state built by `__init__`. -/
def initState : ScanState :=
  { dependencies := [], running_processes := [], installed_frameworks := [] }

/-- `self.dependencies[category].append(record)` on a `defaultdict(list)`:
a missing category key is created (at the end, in insertion order). -/
def appendDep (d : List (String × List PyDict)) (cat : String) (r : PyDict) :
    List (String × List PyDict) :=
  match d with
  | [] => [(cat, [r])]
  | (c, rs) :: rest =>
    if c = cat then (c, rs ++ [r]) :: rest else (c, rs) :: appendDep rest cat r

/-- Append a list of `(category, record)` pairs in order. -/
def appendAll (d : List (String × List PyDict)) (recs : List (String × PyDict)) :
    List (String × List PyDict) :=
  recs.foldl (fun acc cr => appendDep acc cr.1 cr.2) d

/-- Phase 1, `detect_frameworks`, as a state transformer. -/
def detect_frameworks_st (env : ScanEnv) (st : ScanState) : Except PyExc ScanState :=
  match detect_frameworks env with
  | Except.error e => Except.error e
  | Except.ok fw => Except.ok { st with installed_frameworks := fw }

/-- Phase 2, `scan_installed_applications`, as a state transformer. -/
def scan_installed_applications_st (env : ScanEnv) (st : ScanState) : ScanState :=
  { st with
    dependencies :=
      (scan_installed_applications_records env).foldl
        (fun acc r => appendDep acc "java" r) st.dependencies }

/-- Phase 3, `scan_running_processes`, as a state transformer. -/
def scan_running_processes_st (env : ScanEnv) (st : ScanState) : ScanState :=
  { st with dependencies := appendAll st.dependencies (scan_running_processes_records env) }

/-- The JSON report returned by `generate_report`. -/
structure ScanReport where
  /-- `scan_summary.frameworks_found`. -/
  frameworks_found : Nat
  /-- `scan_summary.dependencies_found`. -/
  dependencies_found : Nat
  /-- `scan_summary.scan_timestamp`. -/
  scan_timestamp : String
  /-- The `installed_frameworks` section. -/
  installed_frameworks : List (String × PyDict)
  /-- The `dependencies` section. -/
  dependencies : List (String × List PyDict)

/-- `generate_report`. -/
def generate_report (env : ScanEnv) (st : ScanState) : ScanReport :=
  { frameworks_found := st.installed_frameworks.length,
    dependencies_found := (st.dependencies.map (fun kv => kv.2.length)).sum,
    scan_timestamp := env.boot_time,
    installed_frameworks := st.installed_frameworks,
    dependencies := st.dependencies }

/-- `scan_all`: the three phases in sequence, then `generate_report`.  An
uncaught exception of phase 1 aborts the remaining phases. -/
def scan_all (env : ScanEnv) (st : ScanState) : Except PyExc ScanReport :=
  match detect_frameworks_st env st with
  | Except.error e => Except.error e
  | Except.ok st1 =>
    Except.ok (generate_report env
      (scan_running_processes_st env (scan_installed_applications_st env st1)))

/-! ### Specification-side definitions

These are *not* translations of the source; they re-express properties the
claims assert (a depth-filtered file enumeration, the EOL result set, the
abort conditions of the detector loops) so that the theorems below compare
the translated code against them.
-/

/-- All files reachable from a directory's children through accessible,
non-hidden directories, in `iterdir` traversal order, together with their
depth (a file directly in the directory has depth 1) and full path parts. -/
def filesUnder : List String → List FSItem → List (Nat × List String × String)
  | _, [] => []
  | parts, FSItem.file n :: rest => (1, parts ++ [n], n) :: filesUnder parts rest
  | parts, FSItem.dir n a ch :: rest =>
    (if a && ! strStartsWith n "." then
       (filesUnder (parts ++ [n]) ch).map (fun e => (e.1 + 1, e.2))
     else []) ++ filesUnder parts rest
  | parts, FSItem.other _ :: rest => filesUnder parts rest

/-- The records the installed-application walk should produce at depth bound
`md`: the `.jar` files (case-insensitively) among `filesUnder`, at depth at
most `md`, analyzed in order. -/
def jarSpec (md : Nat) (parts : List String) (children : List FSItem) : List PyDict :=
  ((filesUnder parts children).filter
      (fun e => decide (e.1 ≤ md ∧ strToLower (pathSuffix e.2.2) = ".jar"))).map
    (fun e => analyze_file_dependencies e.2.1)

/-- The three admissible EOL classifications. -/
def EolStr (s : String) : Prop := s = "EOL" ∨ s = "Supported" ∨ s = "Unknown"

/-- A framework record carrying a well-formed `eol_status` field. -/
def eolRecordOk (r : PyDict) : Prop :=
  ∃ s, lookupD r "eol_status" = some (PyVal.str s) ∧ EolStr s

/-- The Java registry loop hits an exception that its inner handler does not
catch while probing version `v`. -/
def javaAborts (env : ScanEnv) (v : String) : Prop :=
  ∃ e, env.javaHome v = Except.error e ∧ e ≠ PyExc.fileNotFound

/-- The SQL Server instance loop hits an exception that its inner handler
does not catch while probing instance `nv`. -/
def mssqlAborts (env : ScanEnv) (nv : String × String) : Prop :=
  (∃ e, env.mssqlCurrentVersion nv.2 = Except.error e ∧ e ≠ PyExc.fileNotFound) ∨
  (∃ ver e, env.mssqlCurrentVersion nv.2 = Except.ok ver ∧
    env.mssqlDataRoot nv.2 = Except.error e ∧ e ≠ PyExc.fileNotFound)

/-- A service-property probe fails with an exception that the
`(psutil.AccessDenied, FileNotFoundError)` handler does not catch. -/
def svcProbeFatal (r : Except PyExc String) : Prop :=
  ∃ e, r = Except.error e ∧ e ≠ PyExc.fileNotFound ∧ e ≠ PyExc.accessDenied

/-- The MySQL service loop hits an uncaught exception on service `s`. -/
def mysqlAborts (s : SvcEntry) : Prop :=
  strStartsWith (strToLower s.name) "mysql" = true ∧
    (svcProbeFatal s.display_name ∨
      ∃ dn, s.display_name = Except.ok dn ∧ svcProbeFatal s.binpath)

/-- The PostgreSQL service loop hits an uncaught exception on service `s`. -/
def postgresAborts (s : SvcEntry) : Prop :=
  strStartsWith (strToLower s.name) "postgresql" = true ∧
    (svcProbeFatal s.display_name ∨
      ∃ dn, s.display_name = Except.ok dn ∧ svcProbeFatal s.binpath)

/-! ### Concrete inputs used by witnesses and counterexamples -/

/-- An environment where every probe fails benignly and nothing is found. -/
def envEmpty : ScanEnv :=
  { javaRegistry := Except.error PyExc.otherExc
    javaHome := fun _ => Except.error PyExc.otherExc
    dotnetRun := Except.error PyExc.fileNotFound
    mssqlInstances := Except.error PyExc.otherExc
    mssqlCurrentVersion := fun _ => Except.error PyExc.otherExc
    mssqlDataRoot := fun _ => Except.error PyExc.otherExc
    services := Except.error PyExc.otherExc
    programFiles := none
    programFilesX86 := none
    programData := none
    processes := []
    boot_time := "1700000000.0" }

/-- An environment where the `dotnet` CLI query times out. -/
def envTimeout : ScanEnv := { envEmpty with dotnetRun := Except.error PyExc.timeoutExpired }

/-- An environment whose `dotnet --list-runtimes` query succeeds. -/
def envDotnetOk : ScanEnv :=
  { envEmpty with
    dotnetRun := Except.ok (0, "Microsoft.NETCore.App 6.0.16 [C:\\pf\\dotnet]") }

/-- An environment with a single detected Java 1.8 installation. -/
def envJava18 : ScanEnv :=
  { envEmpty with
    javaRegistry := Except.ok ["1.8"]
    javaHome := fun _ => Except.ok "C:\\Program Files\\Java\\jre1.8.0_202" }

/-- An environment whose Java registry enumerates a version whose value
query fails with an uncaught exception, between two healthy versions. -/
def envJavaMid : ScanEnv :=
  { envEmpty with
    javaRegistry := Except.ok ["1.8", "bad", "9"]
    javaHome := fun v =>
      if v = "bad" then Except.error PyExc.permissionDenied
      else Except.ok ("C:\\Java\\" ++ v) }

/-- An environment whose SQL Server registry enumerates an instance whose
version query fails with an uncaught exception. -/
def envMssqlMid : ScanEnv :=
  { envEmpty with
    mssqlInstances := Except.ok [("GOOD", "MSSQL15.GOOD"), ("BAD", "MSSQL12.BAD")]
    mssqlCurrentVersion := fun inst =>
      if inst = "MSSQL12.BAD" then Except.error PyExc.permissionDenied
      else Except.ok "15.0.2000.5"
    mssqlDataRoot := fun _ => Except.ok "C:\\MSSQL\\Data" }

/-- A MySQL service whose `display_name()` raises an uncaught exception. -/
def svcMysqlBad : SvcEntry :=
  { name := "MySQL80"
    display_name := Except.error PyExc.osFailure
    binpath := Except.ok "C:\\mysql\\bin\\mysqld.exe" }

/-- A healthy MySQL service. -/
def svcMysqlGood : SvcEntry :=
  { name := "MySQL57"
    display_name := Except.ok "MySQL Server 5.7.44"
    binpath := Except.ok "C:\\mysql57\\bin\\mysqld.exe" }

/-- A PostgreSQL service whose `binpath()` raises an uncaught exception. -/
def svcPostgresBad : SvcEntry :=
  { name := "postgresql-x64-14"
    display_name := Except.ok "PostgreSQL 14 Server"
    binpath := Except.error PyExc.osFailure }

/-- An environment carrying the services above. -/
def envSvc : ScanEnv :=
  { envEmpty with services := Except.ok [svcMysqlGood, svcMysqlBad, svcPostgresBad] }

/-- An environment whose `C:/Program Files` holds a single `.jar` file. -/
def envOneJar : ScanEnv :=
  { envEmpty with programFiles := some (true, [FSItem.file "tool.jar"]) }

/-- A process whose only `coreclr.dll` module is outside any
`\dotnet\shared\…` runtime directory. -/
def procSelfContained : ProcEntry :=
  { pid := 4242
    name := "game.exe"
    exe := some "C:\\Apps\\Game\\game.exe"
    memory_maps := Except.ok ["C:\\Apps\\Game\\coreclr.dll"]
    javaProbe := Except.error PyExc.otherExc }

/-- A process with one irrelevant module followed by a shared-runtime
`coreclr.dll` module. -/
def procNetCore : ProcEntry :=
  { pid := 7
    name := "svc.exe"
    exe := some "C:\\svc\\svc.exe"
    memory_maps := Except.ok
      ["C:\\Windows\\System32\\ntdll.dll",
       "C:\\dotnet\\shared\\Microsoft.NETCore.App\\6.0.16\\coreclr.dll"]
    javaProbe := Except.error PyExc.otherExc }

/-- The runtime record of the concrete `java.exe` process. -/
def recJavaRuntime : PyDict :=
  [("app", PyVal.str "java.exe"), ("pid", PyVal.int 9),
   ("file", PyVal.str "C:\\jdk\\bin\\java.exe"),
   ("framework", PyVal.str "Java Runtime 1.8.0_202"),
   ("dependency_path", PyVal.str "C:\\jdk\\bin\\java.exe"),
   ("detection_method", PyVal.str "runtime_analysis"),
   ("confidence", PyVal.str "high"), ("status", PyVal.str "running")]

/-- A running `java.exe` process whose `-version` probe succeeds. -/
def procJava : ProcEntry :=
  { pid := 9
    name := "java.exe"
    exe := some "C:\\jdk\\bin\\java.exe"
    memory_maps := Except.ok []
    javaProbe := Except.ok (0, "java version \"1.8.0_202\"") }

/-! ## Theorems -/

/-! ### Association-list dictionary lemmas -/

theorem lookupD_dictInsert {A : Type} (d : List (String × A)) (k q : String) (v : A) :
    lookupD (dictInsert d k v) q = if q = k then some v else lookupD d q := by
  induction d with
  | nil => by_cases h : q = k <;> simp_all [dictInsert, lookupD, eq_comm]
  | cons a rest ih =>
    obtain ⟨a1, a2⟩ := a
    by_cases h1 : a1 = k <;> by_cases h2 : q = k <;>
      simp_all [dictInsert, lookupD, eq_comm]

theorem lookupD_eq_none_of_not_mem {A : Type} {d : List (String × A)} {k : String}
    (h : k ∉ dictKeys d) : lookupD d k = none := by
  induction d with
  | nil => rfl
  | cons a rest ih =>
    simp only [dictKeys, List.map_cons, List.mem_cons] at h
    push_neg at h
    simp only [lookupD]
    rw [if_neg (fun he => h.1 he.symm)]
    exact ih (by simpa [dictKeys] using h.2)

theorem dictKeys_dictInsert {A : Type} (d : List (String × A)) (k : String) (v : A) :
    dictKeys (dictInsert d k v) = if k ∈ dictKeys d then dictKeys d else dictKeys d ++ [k] := by
  induction d with
  | nil => simp [dictKeys, dictInsert]
  | cons a rest ih =>
    obtain ⟨a1, a2⟩ := a
    by_cases h1 : a1 = k
    · simp [dictKeys, dictInsert, h1]
    · by_cases h2 : k ∈ dictKeys rest <;>
        simp_all [dictKeys, dictInsert, Ne.symm h1]

theorem nodupKeys_dictInsert {A : Type} {d : List (String × A)} {k : String} {v : A}
    (h : (dictKeys d).Nodup) : (dictKeys (dictInsert d k v)).Nodup := by
  rw [dictKeys_dictInsert]
  by_cases hm : k ∈ dictKeys d
  · simpa [hm] using h
  · simp [hm, List.nodup_append, h]

theorem nodupKeys_dictUpdate {A : Type} (d2 d1 : List (String × A))
    (h : (dictKeys d1).Nodup) : (dictKeys (dictUpdate d1 d2)).Nodup := by
  induction d2 generalizing d1 with
  | nil => exact h
  | cons a rest ih => exact ih (dictInsert d1 a.1 a.2) (nodupKeys_dictInsert h)

theorem lookupD_dictUpdate {A : Type} (d2 d1 : List (String × A)) (k : String)
    (h : (dictKeys d2).Nodup) :
    lookupD (dictUpdate d1 d2) k = (lookupD d2 k).orElse (fun _ => lookupD d1 k) := by
  induction d2 generalizing d1 with
  | nil => simp [dictUpdate, lookupD, Option.orElse]
  | cons a rest ih =>
    obtain ⟨a1, a2⟩ := a
    simp only [dictKeys, List.map_cons, List.nodup_cons] at h
    have step : dictUpdate d1 ((a1, a2) :: rest) = dictUpdate (dictInsert d1 a1 a2) rest := rfl
    rw [step, ih (dictInsert d1 a1 a2) (by simpa [dictKeys] using h.2)]
    by_cases hk : a1 = k
    · subst hk
      have hnone : lookupD rest a1 = none :=
        lookupD_eq_none_of_not_mem (by simpa [dictKeys] using h.1)
      simp [hnone, lookupD, lookupD_dictInsert, Option.orElse]
    · simp [lookupD, hk, lookupD_dictInsert, Ne.symm hk, Option.orElse]

theorem mem_dictInsert {A : Type} {x : String × A} {d : List (String × A)}
    {k : String} {v : A} (h : x ∈ dictInsert d k v) : x ∈ d ∨ x = (k, v) := by
  induction d with
  | nil => simpa [dictInsert] using h
  | cons a rest ih =>
    obtain ⟨a1, a2⟩ := a
    by_cases h1 : a1 = k
    · simp only [dictInsert, if_pos h1, List.mem_cons] at h
      rcases h with h | h
      · exact Or.inr h
      · exact Or.inl (List.mem_cons_of_mem _ h)
    · simp only [dictInsert, if_neg h1, List.mem_cons] at h
      rcases h with h | h
      · exact Or.inl (by simp [h])
      · rcases ih h with h2 | h2
        · exact Or.inl (List.mem_cons_of_mem _ h2)
        · exact Or.inr h2

theorem mem_dictUpdate {A : Type} {x : String × A} (d2 d1 : List (String × A))
    (h : x ∈ dictUpdate d1 d2) : x ∈ d1 ∨ x ∈ d2 := by
  induction d2 generalizing d1 with
  | nil => exact Or.inl h
  | cons a rest ih =>
    have step : dictUpdate d1 (a :: rest) = dictUpdate (dictInsert d1 a.1 a.2) rest := rfl
    rw [step] at h
    rcases ih (dictInsert d1 a.1 a.2) h with h2 | h2
    · rcases mem_dictInsert h2 with h3 | h3
      · exact Or.inl h3
      · exact Or.inr (by simp [h3])
    · exact Or.inr (List.mem_cons_of_mem _ h2)

theorem lookupD_mem {A : Type} {d : List (String × A)} {k : String} {r : A}
    (h : lookupD d k = some r) : (k, r) ∈ d := by
  induction d with
  | nil => simp [lookupD] at h
  | cons a rest ih =>
    obtain ⟨a1, a2⟩ := a
    by_cases h1 : a1 = k
    · subst h1
      simp only [lookupD, if_true, eq_self_iff_true, Option.some.injEq] at h
      simp [h]
    · simp only [lookupD, if_neg h1] at h
      exact List.mem_cons_of_mem _ (ih h)

/-! ### String-prefix and split lemmas -/

theorem listStarts_same (c : Char) (s ps : List Char) :
    listStarts (c :: s) (c :: ps) = listStarts s ps := by
  simp [listStarts]

theorem listStarts_ne {c d : Char} (s ps : List Char) (h : ¬ d = c) :
    listStarts (c :: s) (d :: ps) = false := by
  simp [listStarts, h]

theorem listStarts_shape {s ps : List Char} {p : Char}
    (h : listStarts s (p :: ps) = true) : ∃ t, s = p :: t ∧ listStarts t ps = true := by
  cases s with
  | nil => simp [listStarts] at h
  | cons c s1 =>
    by_cases hp : p = c
    · subst hp
      exact ⟨s1, rfl, by simpa [listStarts] using h⟩
    · simp [listStarts, hp] at h

theorem splitOnCh_ne_nil (sep : Char) (l : List Char) : splitOnCh sep l ≠ [] := by
  cases l with
  | nil => simp [splitOnCh]
  | cons c rest =>
    by_cases h : c = sep
    · simp [splitOnCh, h]
    · simp only [splitOnCh, if_neg h]
      cases hs : splitOnCh sep rest <;> simp

theorem splitOnCh_get1_none {sep : Char} {l : List Char} (h : sep ∉ l) :
    (splitOnCh sep l)[1]? = none := by
  induction l with
  | nil => rfl
  | cons c rest ih =>
    simp only [List.mem_cons] at h
    push_neg at h
    have hne : ¬ c = sep := fun he => h.1 he.symm
    simp only [splitOnCh, if_neg hne]
    cases hs : splitOnCh sep rest with
    | nil => exact absurd hs (splitOnCh_ne_nil sep rest)
    | cons g gs =>
      have := ih h.2
      rw [hs] at this
      simpa using this

theorem pySplit_get1_none {v : String} (h : '.' ∉ v.toList) :
    (pySplit '.' v)[1]? = none := by
  simp only [pySplit]
  rw [List.getElem?_map, splitOnCh_get1_none h]
  rfl

theorem strStartsWith_head_ne {v : String} {c : Char} {t : List Char} {p : String}
    {d : Char} {ps : List Char} (hv : v.toList = c :: t) (hp : p.toList = d :: ps)
    (h : ¬ d = c) : strStartsWith v p = false := by
  unfold strStartsWith
  rw [hv, hp]
  exact listStarts_ne _ _ h

/-! ### Range of the EOL checkers -/

theorem check_java_eol_range (v : String) : EolStr (check_java_eol v) := by
  unfold EolStr check_java_eol
  cases hc : (pySplit '.' v)[1]? with
  | none => simp
  | some c =>
    cases hn : pyInt c with
    | none => simp [hn]
    | some n => by_cases h : n < 11 <;> simp [hn, h]

theorem check_dotnet_core_eol_range (v : String) : EolStr (check_dotnet_core_eol v) := by
  unfold EolStr check_dotnet_core_eol
  by_cases h : eol_versions.any (fun p => strStartsWith v p) = true
  · simp [h]
  · simp [h]

theorem check_mssql_eol_range (v : String) : EolStr (check_mssql_eol v) := by
  unfold EolStr check_mssql_eol
  cases hm : pyInt ((pySplit '.' v).headD "") with
  | none => simp
  | some major => by_cases h : major < 13 <;> simp [h]

theorem check_mysql_eol_range (v : String) : EolStr (check_mysql_eol v) := by
  unfold EolStr check_mysql_eol
  by_cases h : strStartsWith v "5." = true
  · simp [h]
  · simp [h]

theorem check_postgresql_eol_range (v : String) : EolStr (check_postgresql_eol v) := by
  unfold EolStr check_postgresql_eol
  cases hm : pyInt ((pySplit '.' v).headD "") with
  | none => simp
  | some major => by_cases h : major < 12 <;> simp [h]

/-- C9: `check_dotnet_core_eol` returns `'EOL'` exactly on the prefixes of
the `eol_versions` list, whose last element is the concatenated literal
`'6.07.0'` (not the two entries `'6.0'`, `'7.0'`); consequently a version
starting with `'6.0'` or `'7.0'` that does not start with `'6.07.0'` is
classified `'Supported'`. -/
theorem c9_dotnet_eol_list (v : String) :
    ("6.07.0" ∈ eol_versions ∧ ¬ "6.0" ∈ eol_versions ∧ ¬ "7.0" ∈ eol_versions) ∧
    (check_dotnet_core_eol v = "EOL" ↔ ∃ p ∈ eol_versions, strStartsWith v p = true) ∧
    ((strStartsWith v "6.0" = true ∨ strStartsWith v "7.0" = true) →
      strStartsWith v "6.07.0" = false → check_dotnet_core_eol v = "Supported") := by
  refine ⟨by decide, ?_, ?_⟩
  · have hiff : check_dotnet_core_eol v = "EOL" ↔
        eol_versions.any (fun p => strStartsWith v p) = true := by
      unfold check_dotnet_core_eol
      cases h : eol_versions.any (fun p => strStartsWith v p) <;> simp [h]
    rw [hiff, List.any_eq_true]
  · intro h60 h607
    rcases h60 with h6 | h7
    · obtain ⟨t0, he0, hs0⟩ := listStarts_shape (p := '6') h6
      obtain ⟨t1, he1, hs1⟩ := listStarts_shape (p := '.') hs0
      obtain ⟨t2, he2, _⟩ := listStarts_shape (p := '0') hs1
      subst he1; subst he2
      have hv : v.toList = '6' :: '.' :: '0' :: t2 := he0
      have h607t : listStarts t2 ['7', '.', '0'] = false := by
        have hx : listStarts v.toList ("6.07.0".toList) = false := h607
        rw [hv, show ("6.07.0").toList = ['6', '.', '0', '7', '.', '0'] from rfl] at hx
        simpa [listStarts_same] using hx
      have hfalse : eol_versions.any (fun p => strStartsWith v p) = false := by
        rw [List.any_eq_false]
        intro p hp
        fin_cases hp <;> simp only [Bool.not_eq_true]
        · exact strStartsWith_head_ne hv (show ("1.0").toList = '1' :: ['.', '0'] from rfl)
            (by decide)
        · exact strStartsWith_head_ne hv (show ("1.1").toList = '1' :: ['.', '1'] from rfl)
            (by decide)
        · exact strStartsWith_head_ne hv (show ("2.0").toList = '2' :: ['.', '0'] from rfl)
            (by decide)
        · exact strStartsWith_head_ne hv (show ("2.1").toList = '2' :: ['.', '1'] from rfl)
            (by decide)
        · exact strStartsWith_head_ne hv (show ("2.2").toList = '2' :: ['.', '2'] from rfl)
            (by decide)
        · exact strStartsWith_head_ne hv (show ("3.0").toList = '3' :: ['.', '0'] from rfl)
            (by decide)
        · exact strStartsWith_head_ne hv (show ("3.1").toList = '3' :: ['.', '1'] from rfl)
            (by decide)
        · exact strStartsWith_head_ne hv (show ("5.0").toList = '5' :: ['.', '0'] from rfl)
            (by decide)
        · unfold strStartsWith
          rw [hv, show ("6.07.0").toList = ['6', '.', '0', '7', '.', '0'] from rfl]
          simpa [listStarts_same] using h607t
      simp [check_dotnet_core_eol, hfalse]
    · obtain ⟨t0, he0, _⟩ := listStarts_shape (p := '7') h7
      have hv : v.toList = '7' :: t0 := he0
      have hfalse : eol_versions.any (fun p => strStartsWith v p) = false := by
        rw [List.any_eq_false]
        intro p hp
        fin_cases hp <;> simp only [Bool.not_eq_true]
        · exact strStartsWith_head_ne hv (show ("1.0").toList = '1' :: ['.', '0'] from rfl)
            (by decide)
        · exact strStartsWith_head_ne hv (show ("1.1").toList = '1' :: ['.', '1'] from rfl)
            (by decide)
        · exact strStartsWith_head_ne hv (show ("2.0").toList = '2' :: ['.', '0'] from rfl)
            (by decide)
        · exact strStartsWith_head_ne hv (show ("2.1").toList = '2' :: ['.', '1'] from rfl)
            (by decide)
        · exact strStartsWith_head_ne hv (show ("2.2").toList = '2' :: ['.', '2'] from rfl)
            (by decide)
        · exact strStartsWith_head_ne hv (show ("3.0").toList = '3' :: ['.', '0'] from rfl)
            (by decide)
        · exact strStartsWith_head_ne hv (show ("3.1").toList = '3' :: ['.', '1'] from rfl)
            (by decide)
        · exact strStartsWith_head_ne hv (show ("5.0").toList = '5' :: ['.', '0'] from rfl)
            (by decide)
        · exact strStartsWith_head_ne hv
            (show ("6.07.0").toList = '6' :: ['.', '0', '7', '.', '0'] from rfl) (by decide)
      simp [check_dotnet_core_eol, hfalse]

/-- C9 witness: `6.0.16` starts with `6.0`, does not start with `6.07.0`,
and is classified `Supported`. -/
theorem c9_dotnet_eol_list_witness : check_dotnet_core_eol "6.0.16" = "Supported" :=
  (c9_dotnet_eol_list "6.0.16").2.2 (Or.inl (by decide)) (by decide)

/-- C10: `check_java_eol` is `'EOL'` exactly when the second dot-separated
component parses as an integer below 11, `'Supported'` exactly when it
parses as an integer at least 11, and `'Unknown'` when there is no second
component (that is, no dot at all) or it does not parse; `'1.8'`, `'9.0.1'`
and `'17.0.2'` are therefore EOL while `'17'` is Unknown. -/
theorem c10_java_eol_second_component (v : String) :
    (check_java_eol v = "EOL" ↔
      ∃ c n, (pySplit '.' v)[1]? = some c ∧ pyInt c = some n ∧ n < 11) ∧
    (check_java_eol v = "Supported" ↔
      ∃ c n, (pySplit '.' v)[1]? = some c ∧ pyInt c = some n ∧ 11 ≤ n) ∧
    (check_java_eol v = "Unknown" ↔
      ((pySplit '.' v)[1]? = none ∨
        ∃ c, (pySplit '.' v)[1]? = some c ∧ pyInt c = none)) ∧
    ('.' ∉ v.toList → check_java_eol v = "Unknown") ∧
    check_java_eol "1.8" = "EOL" ∧ check_java_eol "9.0.1" = "EOL" ∧
    check_java_eol "17.0.2" = "EOL" ∧ check_java_eol "17" = "Unknown" := by
  refine ⟨?_, ?_, ?_, ?_, by decide, by decide, by decide, by decide⟩
  · unfold check_java_eol
    cases hc : (pySplit '.' v)[1]? with
    | none => simp
    | some c =>
      cases hn : pyInt c with
      | none => simp [hn]
      | some n => by_cases hlt : n < 11 <;> simp [hn, hlt]
  · unfold check_java_eol
    cases hc : (pySplit '.' v)[1]? with
    | none => simp
    | some c =>
      cases hn : pyInt c with
      | none => simp [hn]
      | some n => by_cases hlt : n < 11 <;> (simp [hn, hlt]; try omega)
  · unfold check_java_eol
    cases hc : (pySplit '.' v)[1]? with
    | none => simp
    | some c =>
      cases hn : pyInt c with
      | none => simp [hn]
      | some n => by_cases hlt : n < 11 <;> simp [hn, hlt]
  · intro hdot
    unfold check_java_eol
    rw [pySplit_get1_none hdot]

/-- C10 witness: `17` has no dot and is classified `Unknown`. -/
theorem c10_java_eol_second_component_witness : check_java_eol "17" = "Unknown" :=
  (c10_java_eol_second_component "17").2.2.2.1 (by decide)

/-- C7: `generate_report` passes both aggregate structures through
unchanged, counts `frameworks_found` as the number of framework keys and
`dependencies_found` as the total number of records over all categories. -/
theorem c7_generate_report (env : ScanEnv) (st : ScanState) :
    (generate_report env st).installed_frameworks = st.installed_frameworks ∧
    (generate_report env st).dependencies = st.dependencies ∧
    (generate_report env st).frameworks_found = st.installed_frameworks.length ∧
    (generate_report env st).dependencies_found =
      (st.dependencies.map (fun kv => kv.2.length)).sum :=
  ⟨rfl, rfl, rfl, rfl⟩

/-- C1: when phase 1 completes, `scan_all` runs `detect_frameworks`, then
`scan_installed_applications`, then `scan_running_processes`, in that order,
and returns exactly the report `generate_report` builds from the final
state; when phase 1 raises, the exception propagates and the later phases
never run. -/
theorem c1_scan_all_phases (env : ScanEnv) (st : ScanState) :
    (∀ fw, detect_frameworks env = Except.ok fw →
      scan_all env st = Except.ok (generate_report env
        (scan_running_processes_st env (scan_installed_applications_st env
          { st with installed_frameworks := fw })))) ∧
    (∀ e, detect_frameworks env = Except.error e → scan_all env st = Except.error e) := by
  constructor
  · intro fw h
    unfold scan_all detect_frameworks_st
    rw [h]
  · intro e h
    unfold scan_all detect_frameworks_st
    rw [h]

/-- C1 witness: the composed pipeline on a concrete environment. -/
theorem c1_scan_all_phases_witness :
    scan_all envEmpty initState = Except.ok (generate_report envEmpty
      (scan_running_processes_st envEmpty (scan_installed_applications_st envEmpty
        { initState with installed_frameworks := [] }))) :=
  (c1_scan_all_phases envEmpty initState).1 [] rfl

/-! ### Key-uniqueness of the detector outputs -/

theorem nodupKeys_javaLoop (env : ScanEnv) (vs : List String)
    (acc : List (String × PyDict)) (h : (dictKeys acc).Nodup) :
    (dictKeys (javaLoop env vs acc)).Nodup := by
  induction vs generalizing acc with
  | nil => exact h
  | cons v rest ih =>
    unfold javaLoop
    cases hh : env.javaHome v with
    | ok home => exact ih _ (nodupKeys_dictInsert h)
    | error e => cases e <;> first | exact ih _ h | exact h

theorem nodupKeys_detect_java (env : ScanEnv) :
    (dictKeys (detect_java_installations env)).Nodup := by
  unfold detect_java_installations
  cases env.javaRegistry with
  | ok versions => exact nodupKeys_javaLoop env versions [] (by simp [dictKeys])
  | error e => simp [dictKeys]

theorem nodupKeys_dotnetLoop (lines : List String) (acc : List (String × PyDict))
    (h : (dictKeys acc).Nodup) : (dictKeys (dotnetLoop lines acc)).Nodup := by
  induction lines generalizing acc with
  | nil => exact h
  | cons line rest ih =>
    unfold dotnetLoop
    by_cases hs : stripTruthy line = true
    · simp only [hs, if_true]
      cases parseRuntimeLine line.toList with
      | some r =>
        obtain ⟨runtime, version, path⟩ := r
        exact ih _ (nodupKeys_dictInsert h)
      | none => exact ih _ h
    · simp only [Bool.not_eq_true] at hs
      simp only [hs, Bool.false_eq_true, if_false]
      exact ih _ h

theorem nodupKeys_detect_dotnet {env : ScanEnv} {dn : List (String × PyDict)}
    (h : detect_dotnet_core env = Except.ok dn) : (dictKeys dn).Nodup := by
  unfold detect_dotnet_core at h
  cases hr : env.dotnetRun with
  | ok p =>
    obtain ⟨rc, out⟩ := p
    rw [hr] at h
    by_cases hrc : rc = 0
    · simp only [hrc, if_true, Except.ok.injEq] at h
      subst h
      simpa using nodupKeys_dotnetLoop (splitLines out) [] (by simp [dictKeys])
    · simp only [hrc, if_false, Except.ok.injEq] at h
      subst h
      simp [dictKeys]
  | error e =>
    rw [hr] at h
    cases e <;> simp_all [dictKeys]

theorem nodupKeys_mssqlLoop (env : ScanEnv) (entries : List (String × String))
    (acc : List (String × PyDict)) (h : (dictKeys acc).Nodup) :
    (dictKeys (mssqlLoop env entries acc)).Nodup := by
  induction entries generalizing acc with
  | nil => exact h
  | cons nv rest ih =>
    obtain ⟨name, instId⟩ := nv
    unfold mssqlLoop
    cases hv : env.mssqlCurrentVersion instId with
    | ok version =>
      cases hp : env.mssqlDataRoot instId with
      | ok path => exact ih _ (nodupKeys_dictInsert h)
      | error e => cases e <;> first | exact ih _ h | exact h
    | error e => cases e <;> first | exact ih _ h | exact h

theorem nodupKeys_detect_mssql (env : ScanEnv) :
    (dictKeys (detect_sql_server_instances env)).Nodup := by
  unfold detect_sql_server_instances
  cases env.mssqlInstances with
  | ok entries => exact nodupKeys_mssqlLoop env entries [] (by simp [dictKeys])
  | error e => simp [dictKeys]

theorem nodupKeys_mysqlLoop (env : ScanEnv) (svcs : List SvcEntry)
    (acc : List (String × PyDict)) (h : (dictKeys acc).Nodup) :
    (dictKeys (mysqlLoop env svcs acc)).Nodup := by
  induction svcs generalizing acc with
  | nil => exact h
  | cons s rest ih =>
    unfold mysqlLoop
    by_cases hname : strStartsWith (strToLower s.name) "mysql" = true
    · simp only [hname, if_true]
      cases s.display_name with
      | ok dn =>
        cases s.binpath with
        | ok bp => exact ih _ (nodupKeys_dictInsert h)
        | error e => cases e <;> first | exact ih _ h | exact h
      | error e => cases e <;> first | exact ih _ h | exact h
    · simp only [Bool.not_eq_true] at hname
      simp only [hname, Bool.false_eq_true, if_false]
      exact ih _ h

theorem nodupKeys_detect_mysql (env : ScanEnv) :
    (dictKeys (detect_mysql_instances env)).Nodup := by
  unfold detect_mysql_instances
  cases env.services with
  | ok svcs => exact nodupKeys_mysqlLoop env svcs [] (by simp [dictKeys])
  | error e => simp [dictKeys]

theorem nodupKeys_postgresLoop (env : ScanEnv) (svcs : List SvcEntry)
    (acc : List (String × PyDict)) (h : (dictKeys acc).Nodup) :
    (dictKeys (postgresLoop env svcs acc)).Nodup := by
  induction svcs generalizing acc with
  | nil => exact h
  | cons s rest ih =>
    unfold postgresLoop
    by_cases hname : strStartsWith (strToLower s.name) "postgresql" = true
    · simp only [hname, if_true]
      cases s.display_name with
      | ok dn =>
        cases s.binpath with
        | ok bp => exact ih _ (nodupKeys_dictInsert h)
        | error e => cases e <;> first | exact ih _ h | exact h
      | error e => cases e <;> first | exact ih _ h | exact h
    · simp only [Bool.not_eq_true] at hname
      simp only [hname, Bool.false_eq_true, if_false]
      exact ih _ h

theorem nodupKeys_detect_postgres (env : ScanEnv) :
    (dictKeys (detect_postgresql_instances env)).Nodup := by
  unfold detect_postgresql_instances
  cases env.services with
  | ok svcs => exact nodupKeys_postgresLoop env svcs [] (by simp [dictKeys])
  | error e => simp [dictKeys]

theorem nodupKeys_detect_sql (env : ScanEnv) :
    (dictKeys (detect_sql_databases env)).Nodup := by
  unfold detect_sql_databases
  exact nodupKeys_dictUpdate _ _
    (nodupKeys_dictUpdate _ _ (nodupKeys_dictUpdate _ _ (by simp [dictKeys])))

theorem orElse_none {A : Type} (o : Option A) : (o.orElse fun _ => none) = o := by
  cases o <;> rfl

theorem lookupD_nil {A : Type} (k : String) : lookupD ([] : List (String × A)) k = none := rfl

/-- C3: the installed-frameworks map is the right-biased (last-write-wins)
union of the detector maps merged in the order Java, .NET Core, SQL, and
the SQL map is itself the right-biased union of the MSSQL, MySQL and
PostgreSQL maps: a lookup prefers PostgreSQL over MySQL over MSSQL, and the
SQL result over .NET Core over Java, with keys produced by a single
detector kept unchanged. -/
theorem c3_last_write_wins (env : ScanEnv) (fw : List (String × PyDict)) (k : String)
    (h : detect_frameworks env = Except.ok fw) :
    (∃ dn, detect_dotnet_core env = Except.ok dn ∧
      lookupD fw k = (lookupD (detect_sql_databases env) k).orElse
        (fun _ => (lookupD dn k).orElse
          (fun _ => lookupD (detect_java_installations env) k))) ∧
    lookupD (detect_sql_databases env) k =
      (lookupD (detect_postgresql_instances env) k).orElse
        (fun _ => (lookupD (detect_mysql_instances env) k).orElse
          (fun _ => lookupD (detect_sql_server_instances env) k)) := by
  constructor
  · unfold detect_frameworks at h
    cases hdn : detect_dotnet_core env with
    | error e => rw [hdn] at h; cases h
    | ok dn =>
      rw [hdn] at h
      simp only [Except.ok.injEq] at h
      subst h
      refine ⟨dn, rfl, ?_⟩
      rw [lookupD_dictUpdate (detect_sql_databases env) _ k (nodupKeys_detect_sql env)]
      simp only [lookupD_dictUpdate dn (dictUpdate [] (detect_java_installations env)) k
        (nodupKeys_detect_dotnet hdn)]
      simp only [lookupD_dictUpdate (detect_java_installations env) [] k
        (nodupKeys_detect_java env)]
      simp only [lookupD_nil, orElse_none]
  · unfold detect_sql_databases
    rw [lookupD_dictUpdate (detect_postgresql_instances env) _ k
      (nodupKeys_detect_postgres env)]
    simp only [lookupD_dictUpdate (detect_mysql_instances env)
      (dictUpdate [] (detect_sql_server_instances env)) k (nodupKeys_detect_mysql env)]
    simp only [lookupD_dictUpdate (detect_sql_server_instances env) [] k
      (nodupKeys_detect_mssql env)]
    simp only [lookupD_nil, orElse_none]

/-- C3 witness: the merge equations on a concrete environment and key. -/
theorem c3_last_write_wins_witness :
    (∃ dn, detect_dotnet_core envEmpty = Except.ok dn ∧
      lookupD ([] : List (String × PyDict)) "Java 1.8" =
        (lookupD (detect_sql_databases envEmpty) "Java 1.8").orElse
          (fun _ => (lookupD dn "Java 1.8").orElse
            (fun _ => lookupD (detect_java_installations envEmpty) "Java 1.8"))) ∧
    lookupD (detect_sql_databases envEmpty) "Java 1.8" =
      (lookupD (detect_postgresql_instances envEmpty) "Java 1.8").orElse
        (fun _ => (lookupD (detect_mysql_instances envEmpty) "Java 1.8").orElse
          (fun _ => lookupD (detect_sql_server_instances envEmpty) "Java 1.8")) :=
  c3_last_write_wins envEmpty [] "Java 1.8" rfl

/-! ### Every stored framework record carries a well-formed EOL status -/

theorem javaRec_eol (v home : String) : eolRecordOk (javaRec v home) :=
  ⟨check_java_eol v, by simp [javaRec, lookupD], check_java_eol_range v⟩

theorem dotnetRec_eol (runtime v path : String) : eolRecordOk (dotnetRec runtime v path) :=
  ⟨check_dotnet_core_eol v, by simp [dotnetRec, lookupD], check_dotnet_core_eol_range v⟩

theorem mssqlRec_eol (v path : String) : eolRecordOk (mssqlRec v path) :=
  ⟨check_mssql_eol v, by simp [mssqlRec, lookupD], check_mssql_eol_range v⟩

theorem mysqlRec_eol (v path : String) : eolRecordOk (mysqlRec v path) :=
  ⟨check_mysql_eol v, by simp [mysqlRec, lookupD], check_mysql_eol_range v⟩

theorem postgresRec_eol (v path : String) : eolRecordOk (postgresRec v path) :=
  ⟨check_postgresql_eol v, by simp [postgresRec, lookupD], check_postgresql_eol_range v⟩

theorem javaLoop_eol (env : ScanEnv) (vs : List String) (acc : List (String × PyDict))
    (h : ∀ kr ∈ acc, eolRecordOk kr.2) : ∀ kr ∈ javaLoop env vs acc, eolRecordOk kr.2 := by
  induction vs generalizing acc with
  | nil => exact h
  | cons v rest ih =>
    unfold javaLoop
    cases hh : env.javaHome v with
    | ok home =>
      refine ih _ ?_
      intro kr hkr
      rcases mem_dictInsert hkr with h2 | h2
      · exact h kr h2
      · rw [h2]; exact javaRec_eol v home
    | error e => cases e <;> first | exact ih _ h | exact h

theorem detect_java_eol (env : ScanEnv) :
    ∀ kr ∈ detect_java_installations env, eolRecordOk kr.2 := by
  unfold detect_java_installations
  cases env.javaRegistry with
  | ok versions => exact javaLoop_eol env versions [] (by simp)
  | error e => simp

theorem dotnetLoop_eol (lines : List String) (acc : List (String × PyDict))
    (h : ∀ kr ∈ acc, eolRecordOk kr.2) : ∀ kr ∈ dotnetLoop lines acc, eolRecordOk kr.2 := by
  induction lines generalizing acc with
  | nil => exact h
  | cons line rest ih =>
    unfold dotnetLoop
    by_cases hs : stripTruthy line = true
    · simp only [hs, if_true]
      cases parseRuntimeLine line.toList with
      | some r =>
        obtain ⟨runtime, version, path⟩ := r
        refine ih _ ?_
        intro kr hkr
        rcases mem_dictInsert hkr with h2 | h2
        · exact h kr h2
        · rw [h2]; exact dotnetRec_eol runtime version path
      | none => exact ih _ h
    · simp only [Bool.not_eq_true] at hs
      simp only [hs, Bool.false_eq_true, if_false]
      exact ih _ h

theorem detect_dotnet_eol {env : ScanEnv} {dn : List (String × PyDict)}
    (h : detect_dotnet_core env = Except.ok dn) : ∀ kr ∈ dn, eolRecordOk kr.2 := by
  unfold detect_dotnet_core at h
  cases hr : env.dotnetRun with
  | ok p =>
    obtain ⟨rc, out⟩ := p
    rw [hr] at h
    by_cases hrc : rc = 0
    · simp only [hrc, if_true, Except.ok.injEq] at h
      subst h
      simpa using dotnetLoop_eol (splitLines out) [] (by simp)
    · simp only [hrc, if_false, Except.ok.injEq] at h
      subst h
      simp
  | error e =>
    rw [hr] at h
    cases e <;> simp_all

theorem mssqlLoop_eol (env : ScanEnv) (entries : List (String × String))
    (acc : List (String × PyDict)) (h : ∀ kr ∈ acc, eolRecordOk kr.2) :
    ∀ kr ∈ mssqlLoop env entries acc, eolRecordOk kr.2 := by
  induction entries generalizing acc with
  | nil => exact h
  | cons nv rest ih =>
    obtain ⟨name, instId⟩ := nv
    unfold mssqlLoop
    cases hv : env.mssqlCurrentVersion instId with
    | ok version =>
      cases hp : env.mssqlDataRoot instId with
      | ok path =>
        refine ih _ ?_
        intro kr hkr
        rcases mem_dictInsert hkr with h2 | h2
        · exact h kr h2
        · rw [h2]; exact mssqlRec_eol version path
      | error e => cases e <;> first | exact ih _ h | exact h
    | error e => cases e <;> first | exact ih _ h | exact h

theorem detect_mssql_eol (env : ScanEnv) :
    ∀ kr ∈ detect_sql_server_instances env, eolRecordOk kr.2 := by
  unfold detect_sql_server_instances
  cases env.mssqlInstances with
  | ok entries => exact mssqlLoop_eol env entries [] (by simp)
  | error e => simp

theorem mysqlLoop_eol (env : ScanEnv) (svcs : List SvcEntry)
    (acc : List (String × PyDict)) (h : ∀ kr ∈ acc, eolRecordOk kr.2) :
    ∀ kr ∈ mysqlLoop env svcs acc, eolRecordOk kr.2 := by
  induction svcs generalizing acc with
  | nil => exact h
  | cons s rest ih =>
    unfold mysqlLoop
    by_cases hname : strStartsWith (strToLower s.name) "mysql" = true
    · simp only [hname, if_true]
      cases s.display_name with
      | ok dn =>
        cases s.binpath with
        | ok bp =>
          refine ih _ ?_
          intro kr hkr
          rcases mem_dictInsert hkr with h2 | h2
          · exact h kr h2
          · rw [h2]; exact mysqlRec_eol _ _
        | error e => cases e <;> first | exact ih _ h | exact h
      | error e => cases e <;> first | exact ih _ h | exact h
    · simp only [Bool.not_eq_true] at hname
      simp only [hname, Bool.false_eq_true, if_false]
      exact ih _ h

theorem detect_mysql_eol (env : ScanEnv) :
    ∀ kr ∈ detect_mysql_instances env, eolRecordOk kr.2 := by
  unfold detect_mysql_instances
  cases env.services with
  | ok svcs => exact mysqlLoop_eol env svcs [] (by simp)
  | error e => simp

theorem postgresLoop_eol (env : ScanEnv) (svcs : List SvcEntry)
    (acc : List (String × PyDict)) (h : ∀ kr ∈ acc, eolRecordOk kr.2) :
    ∀ kr ∈ postgresLoop env svcs acc, eolRecordOk kr.2 := by
  induction svcs generalizing acc with
  | nil => exact h
  | cons s rest ih =>
    unfold postgresLoop
    by_cases hname : strStartsWith (strToLower s.name) "postgresql" = true
    · simp only [hname, if_true]
      cases s.display_name with
      | ok dn =>
        cases s.binpath with
        | ok bp =>
          refine ih _ ?_
          intro kr hkr
          rcases mem_dictInsert hkr with h2 | h2
          · exact h kr h2
          · rw [h2]; exact postgresRec_eol _ _
        | error e => cases e <;> first | exact ih _ h | exact h
      | error e => cases e <;> first | exact ih _ h | exact h
    · simp only [Bool.not_eq_true] at hname
      simp only [hname, Bool.false_eq_true, if_false]
      exact ih _ h

theorem detect_postgres_eol (env : ScanEnv) :
    ∀ kr ∈ detect_postgresql_instances env, eolRecordOk kr.2 := by
  unfold detect_postgresql_instances
  cases env.services with
  | ok svcs => exact postgresLoop_eol env svcs [] (by simp)
  | error e => simp

theorem detect_sql_eol (env : ScanEnv) :
    ∀ kr ∈ detect_sql_databases env, eolRecordOk kr.2 := by
  unfold detect_sql_databases
  intro kr hkr
  rcases mem_dictUpdate _ _ hkr with h2 | h2
  · rcases mem_dictUpdate _ _ h2 with h3 | h3
    · rcases mem_dictUpdate _ _ h3 with h4 | h4
      · simp at h4
      · exact detect_mssql_eol env kr h4
    · exact detect_mysql_eol env kr h3
  · exact detect_postgres_eol env kr h2

/-- C4: every record any detector stores in the installed-frameworks map
carries an `eol_status` field whose value is one of `'EOL'`, `'Supported'`,
`'Unknown'`, and each of the five EOL-checker functions only ever returns
one of those three strings. -/
theorem c4_eol_status_invariant :
    (∀ v, EolStr (check_java_eol v) ∧ EolStr (check_dotnet_core_eol v) ∧
      EolStr (check_mssql_eol v) ∧ EolStr (check_mysql_eol v) ∧
      EolStr (check_postgresql_eol v)) ∧
    (∀ env fw k r, detect_frameworks env = Except.ok fw →
      lookupD fw k = some r → eolRecordOk r) := by
  constructor
  · intro v
    exact ⟨check_java_eol_range v, check_dotnet_core_eol_range v, check_mssql_eol_range v,
      check_mysql_eol_range v, check_postgresql_eol_range v⟩
  · intro env fw k r hok hlk
    unfold detect_frameworks at hok
    cases hdn : detect_dotnet_core env with
    | error e => rw [hdn] at hok; cases hok
    | ok dn =>
      rw [hdn] at hok
      simp only [Except.ok.injEq] at hok
      subst hok
      have hmem := lookupD_mem hlk
      rcases mem_dictUpdate _ _ hmem with h2 | h2
      · rcases mem_dictUpdate _ _ h2 with h3 | h3
        · rcases mem_dictUpdate _ _ h3 with h4 | h4
          · simp at h4
          · exact detect_java_eol env (k, r) h4
        · exact detect_dotnet_eol hdn (k, r) h3
      · exact detect_sql_eol env (k, r) h2

/-- C4 witness: the invariant applied to a concrete environment with one
detected Java installation. -/
theorem c4_eol_status_invariant_witness :
    eolRecordOk (javaRec "1.8" "C:\\Program Files\\Java\\jre1.8.0_202") :=
  c4_eol_status_invariant.2 envJava18
    [("Java 1.8", javaRec "1.8" "C:\\Program Files\\Java\\jre1.8.0_202")] "Java 1.8"
    (javaRec "1.8" "C:\\Program Files\\Java\\jre1.8.0_202") rfl (by decide)

/-! ### The static filesystem walk -/

theorem filesUnder_depth_pos (parts : List String) (items : List FSItem) :
    ∀ e ∈ filesUnder parts items, 1 ≤ e.1 := by
  induction parts, items using filesUnder.induct with
  | case1 parts => simp [filesUnder]
  | case2 parts n rest ih =>
    intro e he
    simp only [filesUnder, List.mem_cons] at he
    rcases he with he | he
    · simp [he]
    · exact ih e he
  | case3 parts n a ch rest ih1 ih2 =>
    intro e he
    simp only [filesUnder, List.mem_append] at he
    rcases he with he | he
    · split at he
      · simp only [List.mem_map] at he
        obtain ⟨x, hx, hex⟩ := he
        rw [← hex]
        show 1 ≤ x.1 + 1
        exact Nat.le_add_left 1 x.1
      · simp at he
    · exact ih2 e he
  | case4 parts n rest ih =>
    intro e he
    exact ih e (by simpa [filesUnder] using he)

theorem filter_map_bump (l : List (Nat × List String × String))
    (q : Nat × List String × String → Bool) :
    ((l.map (fun e => (e.1 + 1, e.2))).filter q) =
      (l.filter (fun e => q (e.1 + 1, e.2))).map (fun e => (e.1 + 1, e.2)) := by
  induction l with
  | nil => rfl
  | cons e t ih => by_cases hq : q (e.1 + 1, e.2) = true <;> simp [hq, ih]

theorem scanItems_jarSpec (md : Nat) : ∀ parts items,
    scanItemsWith (scanDepth md) parts items =
      ((filesUnder parts items).filter
        (fun e => decide (e.1 ≤ md + 1 ∧ strToLower (pathSuffix e.2.2) = ".jar"))).map
        (fun e => analyze_file_dependencies e.2.1) := by
  induction md using Nat.strong_induction_on with
  | _ md IH =>
    intro parts items
    induction items generalizing parts with
    | nil => simp [scanItemsWith, filesUnder]
    | cons item rest ihr =>
      cases item with
      | file n =>
        simp only [scanItemsWith, filesUnder, List.filter_cons, List.map_cons]
        rw [ihr]
        by_cases hj : strToLower (pathSuffix n) = ".jar"
        · simp [hj, Nat.le_add_left]
        · simp [hj]
      | dir n a ch =>
        simp only [scanItemsWith, filesUnder]
        rw [ihr]
        rw [List.filter_append, List.map_append]
        by_cases hd : strStartsWith n "." = true
        · simp [hd]
        · simp only [Bool.not_eq_true] at hd
          simp only [hd, Bool.false_eq_true, if_false, Bool.not_false, Bool.and_true]
          by_cases ha : a = true
          · subst ha
            simp only [if_true]
            cases md with
            | zero =>
              have hnil : (((filesUnder (parts ++ [n]) ch).map
                  (fun e => (e.1 + 1, e.2))).filter
                  (fun e => decide (e.1 ≤ 0 + 1 ∧ strToLower (pathSuffix e.2.2) = ".jar")))
                  = [] := by
                rw [List.filter_eq_nil_iff]
                intro e he
                simp only [List.mem_map] at he
                obtain ⟨x, hx, hex⟩ := he
                have hpos := filesUnder_depth_pos (parts ++ [n]) ch x hx
                rw [← hex]
                simp only [decide_eq_true_eq, not_and]
                intro hle
                omega
              have h0 : scanDepth 0 (parts ++ [n]) true ch = [] := rfl
              rw [h0, hnil]
              simp
            | succ md2 =>
              have hrec := IH md2 (by omega) (parts ++ [n]) ch
              simp only [scanDepth, if_true, hrec, filter_map_bump, List.map_map]
              have hfun : ((fun (e : Nat × List String × String) =>
                    analyze_file_dependencies e.2.1) ∘
                  (fun (e : Nat × List String × String) => (e.1 + 1, e.2)))
                  = fun (e : Nat × List String × String) =>
                    analyze_file_dependencies e.2.1 := by
                funext e
                rfl
              rw [hfun]
              congr 1
              congr 1
              apply List.filter_congr
              intro e he
              rw [decide_eq_decide]
              constructor
              · intro hh
                exact ⟨by omega, hh.2⟩
              · intro hh
                exact ⟨by omega, hh.2⟩
          · simp only [Bool.not_eq_true] at ha
            subst ha
            cases md <;> simp [scanDepth]
      | other n =>
        simp only [scanItemsWith, filesUnder]
        exact ihr parts

theorem scanDir_jarSpec (parts : List String) (accessible : Bool)
    (children : List FSItem) (max_depth : Nat) :
    scan_directory_for_dependencies parts accessible children max_depth =
      if accessible then jarSpec max_depth parts children else [] := by
  unfold scan_directory_for_dependencies jarSpec
  cases max_depth with
  | zero =>
    cases accessible with
    | false => rfl
    | true =>
      have hnil : ((filesUnder parts children).filter
          (fun e => decide (e.1 ≤ 0 ∧ strToLower (pathSuffix e.2.2) = ".jar"))) = [] := by
        rw [List.filter_eq_nil_iff]
        intro e he
        have := filesUnder_depth_pos parts children e he
        simp only [decide_eq_true_eq, not_and]
        intro hle
        omega
      have h0 : scanDepth 0 parts true children = [] := rfl
      rw [h0, hnil]
      simp
  | succ md =>
    cases accessible with
    | false => rfl
    | true =>
      simpa [scanDepth] using scanItems_jarSpec md parts children

theorem scanRoot_jarSpec (parts : List String) (o : Option (Bool × List FSItem)) :
    scanRoot parts o = (match o with
      | none => []
      | some pr => if pr.1 then jarSpec 3 parts pr.2 else []) := by
  cases o with
  | none => rfl
  | some pr => exact scanDir_jarSpec parts pr.1 pr.2 3

/-- C8: the installed-application scan is a depth-bounded walk: for every
directory tree, `scan_directory_for_dependencies` returns exactly the
analyzed records of the `.jar` files (case-insensitive extension) reachable
through accessible non-hidden directories at depth at most `max_depth`
(totality of the walk is the totality of this Lean function, whose
recursion is bounded by the decreasing `max_depth`);
`scan_installed_applications` applies it to `C:/Program Files`,
`C:/Program Files (x86)` and `C:/ProgramData` with `max_depth = 3`; every
record carries framework `Java Runtime`, detection method
`static_analysis` and confidence `high`, and all records are appended
under the `'java'` category. -/
theorem c8_static_walk :
    (∀ parts accessible children max_depth,
      scan_directory_for_dependencies parts accessible children max_depth =
        if accessible then jarSpec max_depth parts children else []) ∧
    (∀ env : ScanEnv, scan_installed_applications_records env =
      (match env.programFiles with
        | none => []
        | some pr => if pr.1 then jarSpec 3 programFilesParts pr.2 else []) ++
      (match env.programFilesX86 with
        | none => []
        | some pr => if pr.1 then jarSpec 3 programFilesX86Parts pr.2 else []) ++
      (match env.programData with
        | none => []
        | some pr => if pr.1 then jarSpec 3 programDataParts pr.2 else [])) ∧
    (∀ parts,
      lookupD (analyze_file_dependencies parts) "framework" =
        some (PyVal.str "Java Runtime") ∧
      lookupD (analyze_file_dependencies parts) "detection_method" =
        some (PyVal.str "static_analysis") ∧
      lookupD (analyze_file_dependencies parts) "confidence" =
        some (PyVal.str "high")) ∧
    (∀ env st, scan_installed_applications_st env st =
      { st with
        dependencies :=
          (scan_installed_applications_records env).foldl
            (fun acc r => appendDep acc "java" r) st.dependencies }) := by
  refine ⟨scanDir_jarSpec, ?_, ?_, fun env st => rfl⟩
  · intro env
    unfold scan_installed_applications_records
    rw [scanRoot_jarSpec, scanRoot_jarSpec, scanRoot_jarSpec]
  · intro parts
    refine ⟨?_, ?_, ?_⟩ <;> simp [analyze_file_dependencies, lookupD]

/-! ### The process memory-map scan -/

theorem appSeg_fst {app : String} {s1 : List Char} {r : String × String}
    (h : appSeg app s1 = some r) : r.1 = app := by
  unfold appSeg at h
  split at h
  · exact absurd h (by simp)
  · split at h
    · exact absurd h (by simp)
    · dsimp only at h
      split at h
      · exact absurd h (by simp)
      · split at h
        · injection h with h2
          rw [← h2]
        · exact absurd h (by simp)

theorem matchCoreAt_app {s : List Char} {r : String × String}
    (h : matchCoreAt s = some r) :
    r.1 = "microsoft.netcore.app" ∨ r.1 = "microsoft.aspnetcore.app" := by
  unfold matchCoreAt at h
  split at h
  · exact absurd h (by simp)
  · split at h
    · left
      injection h with h2
      rw [← h2]
      exact appSeg_fst (by assumption)
    · right
      exact appSeg_fst h

theorem searchCore_app {s : List Char} {r : String × String}
    (h : searchCore s = some r) :
    r.1 = "microsoft.netcore.app" ∨ r.1 = "microsoft.aspnetcore.app" := by
  induction s with
  | nil => simp [searchCore] at h
  | cons c rest ih =>
    unfold searchCore at h
    cases hm : matchCoreAt (c :: rest) with
    | some r2 =>
      rw [hm] at h
      injection h with h2
      subst h2
      exact matchCoreAt_app hm
    | none =>
      rw [hm] at h
      exact ih h

theorem moduleHit_regex (p : ProcEntry) (q app ver : String)
    (h : searchCore (strToLower q).toList = some (app, ver)) :
    moduleHit p q = some (ver ++ " (" ++ dotIdxNeg2 app ++ ")", q) := by
  unfold moduleHit
  simp only [h]

theorem scanMaps_none_iff (p : ProcEntry) (paths : List String) :
    scanMaps p paths = none ↔ ∀ q ∈ paths, moduleHit p q = none := by
  induction paths with
  | nil => simp [scanMaps]
  | cons q rest ih =>
    unfold scanMaps
    cases hq : moduleHit p q with
    | some r => simp [hq]
    | none => simp [hq, ih]

theorem scanMaps_first (p : ProcEntry) (pre : List String) (q : String)
    (rest : List String) (r : String × String)
    (hpre : ∀ x ∈ pre, moduleHit p x = none) (hq : moduleHit p q = some r) :
    scanMaps p (pre ++ q :: rest) = some r := by
  induction pre with
  | nil =>
    rw [List.nil_append]
    unfold scanMaps
    rw [hq]
  | cons x xs ih =>
    have hx : moduleHit p x = none := hpre x (by simp)
    rw [List.cons_append]
    unfold scanMaps
    rw [hx]
    exact ih (fun y hy => hpre y (by simp [hy]))

theorem paren_eq (w d r : String) (h : " (" ++ (d ++ ")") = r) :
    w ++ " (" ++ d ++ ")" = w ++ r := by
  rw [String.append_assoc, String.append_assoc, h]

/-- C2 (amended): inferring a .NET Core runtime from a process's memory
maps scans the modules in order and returns at the first module that
triggers either branch of the loop body: the shared-runtime regex (yielding
`"<version> (netcore)"` or `"<version> (aspnetcore)"` with that module's
path) or the self-contained fallback (the lower-cased path contains
`coreclr.dll` but not `microsoft.net`, yielding
`"Self-Contained (<process name>)"`); `(None, None)` is returned exactly
when no module triggers either branch. -/
theorem c2_dotnet_from_process (p : ProcEntry) (paths : List String)
    (h : p.memory_maps = Except.ok paths) :
    get_dotnet_core_version_from_process p = Except.ok (scanMaps p paths) ∧
    (scanMaps p paths = none ↔ ∀ q ∈ paths, moduleHit p q = none) ∧
    (∀ pre q rest r, paths = pre ++ q :: rest → (∀ x ∈ pre, moduleHit p x = none) →
      moduleHit p q = some r → scanMaps p paths = some r) ∧
    (∀ q app ver, searchCore (strToLower q).toList = some (app, ver) →
      moduleHit p q = some (ver ++ " (netcore)", q) ∨
      moduleHit p q = some (ver ++ " (aspnetcore)", q)) ∧
    (∀ q, searchCore (strToLower q).toList = none →
      containsSub (strToLower q).toList "coreclr.dll".toList = true →
      containsSub (strToLower q).toList "microsoft.net".toList = false →
      moduleHit p q = some ("Self-Contained (" ++ p.name ++ ")", q)) := by
  refine ⟨?_, scanMaps_none_iff p paths, ?_, ?_, ?_⟩
  · unfold get_dotnet_core_version_from_process
    rw [h]
  · intro pre q rest r hp hpre hq
    rw [hp]
    exact scanMaps_first p pre q rest r hpre hq
  · intro q app ver hs
    have hmod := moduleHit_regex p q app ver hs
    rcases searchCore_app hs with h1 | h1
    · left
      simp only at h1
      subst h1
      rw [hmod]
      rw [show dotIdxNeg2 "microsoft.netcore.app" = "netcore" from by decide]
      rw [paren_eq ver "netcore" " (netcore)" (by decide)]
    · right
      simp only at h1
      subst h1
      rw [hmod]
      rw [show dotIdxNeg2 "microsoft.aspnetcore.app" = "aspnetcore" from by decide]
      rw [paren_eq ver "aspnetcore" " (aspnetcore)" (by decide)]
  · intro q hs hc hn
    unfold moduleHit
    simp only [hs, hc, hn]
    rfl

/-- C2 counterexample to the claim as stated: a module list whose only
entry matches no occurrence of the shared-runtime regex, yet the function
returns a hit (the self-contained branch) instead of `(None, None)`. -/
theorem c2_dotnet_from_process_counterexample :
    get_dotnet_core_version_from_process procSelfContained =
      Except.ok (some ("Self-Contained (game.exe)", "C:\\Apps\\Game\\coreclr.dll")) ∧
    searchCore (strToLower "C:\\Apps\\Game\\coreclr.dll").toList = none :=
  ⟨rfl, by decide⟩

/-- C2 witness: the first-match behaviour on a concrete process whose
second module is a shared-runtime `coreclr.dll`. -/
theorem c2_dotnet_from_process_witness :
    scanMaps procNetCore
      ["C:\\Windows\\System32\\ntdll.dll",
       "C:\\dotnet\\shared\\Microsoft.NETCore.App\\6.0.16\\coreclr.dll"] =
      some ("6.0.16 (netcore)",
        "C:\\dotnet\\shared\\Microsoft.NETCore.App\\6.0.16\\coreclr.dll") :=
  (c2_dotnet_from_process procNetCore
      ["C:\\Windows\\System32\\ntdll.dll",
       "C:\\dotnet\\shared\\Microsoft.NETCore.App\\6.0.16\\coreclr.dll"] rfl).2.2.1
    ["C:\\Windows\\System32\\ntdll.dll"]
    "C:\\dotnet\\shared\\Microsoft.NETCore.App\\6.0.16\\coreclr.dll" []
    ("6.0.16 (netcore)", "C:\\dotnet\\shared\\Microsoft.NETCore.App\\6.0.16\\coreclr.dll")
    rfl (by decide) (by decide)

/-! ### Confidence and status annotations on dependency records -/

/-- C6 (amended): every runtime-analysis record appended by
`analyze_running_process` carries both a `'confidence'` (`'high'`) and a
`'status'` (`'running'`) annotation, while the static-analysis records
appended by `analyze_file_dependencies` carry `'confidence'` (`'high'`)
but no `'status'` key at all. -/
theorem c6_confidence_status :
    (∀ parts,
      lookupD (analyze_file_dependencies parts) "confidence" = some (PyVal.str "high") ∧
      lookupD (analyze_file_dependencies parts) "status" = none) ∧
    (∀ p c r, (c, r) ∈ analyze_running_process p →
      lookupD r "confidence" = some (PyVal.str "high") ∧
      lookupD r "status" = some (PyVal.str "running")) := by
  constructor
  · intro parts
    constructor <;> simp [analyze_file_dependencies, lookupD]
  · intro p c r h
    unfold analyze_running_process at h
    cases hx : p.exe with
    | none => rw [hx] at h; simp at h
    | some exe =>
      rw [hx] at h
      dsimp only at h
      by_cases he : exe = ""
      · rw [if_pos he] at h
        simp at h
      · rw [if_neg he] at h
        cases hg : get_dotnet_core_version_from_process p with
        | error e => rw [hg] at h; simp at h
        | ok found =>
          rw [hg] at h
          rcases List.mem_append.mp h with h2 | h2
          · cases found with
            | none => simp at h2
            | some dv =>
              obtain ⟨dvs, dps⟩ := dv
              simp only [List.mem_singleton, Prod.mk.injEq] at h2
              rw [h2.2]
              constructor <;> simp [lookupD]
          · by_cases hj : is_java_process p = true
            · simp only [hj, if_true, List.mem_singleton, Prod.mk.injEq] at h2
              rw [h2.2]
              constructor <;> simp [lookupD]
            · simp only [Bool.not_eq_true] at hj
              simp [hj] at h2

/-- C6 counterexample to the claim as stated: the record the static scan
produces for a concrete `.jar` file in `C:/Program Files` has no
`'status'` key. -/
theorem c6_confidence_status_counterexample :
    scan_installed_applications_records envOneJar =
      [analyze_file_dependencies ["C:\\", "Program Files", "tool.jar"]] ∧
    lookupD (analyze_file_dependencies ["C:\\", "Program Files", "tool.jar"]) "status"
      = none :=
  ⟨rfl, by decide⟩

/-- C6 witness: the annotations of a concrete runtime-analysis record. -/
theorem c6_confidence_status_witness :
    lookupD recJavaRuntime "confidence" = some (PyVal.str "high") ∧
    lookupD recJavaRuntime "status" = some (PyVal.str "running") :=
  c6_confidence_status.2 procJava "java_runtime" recJavaRuntime (by decide)

/-! ### Exception behaviour of the detectors -/

theorem javaLoop_abort (env : ScanEnv) (pre : List String) (v : String)
    (post : List String) (acc : List (String × PyDict)) (h : javaAborts env v) :
    javaLoop env (pre ++ v :: post) acc = javaLoop env pre acc := by
  obtain ⟨e, he, hne⟩ := h
  induction pre generalizing acc with
  | nil =>
    rw [List.nil_append]
    show javaLoop env (v :: post) acc = javaLoop env [] acc
    unfold javaLoop
    rw [he]
    cases e <;> first | exact absurd rfl hne | rfl
  | cons x xs ih =>
    rw [List.cons_append]
    unfold javaLoop
    cases hx : env.javaHome x with
    | ok home => exact ih (dictInsert acc ("Java " ++ x) (javaRec x home))
    | error e2 => cases e2 <;> first | exact ih acc | rfl

theorem mssqlLoop_abort (env : ScanEnv) (pre : List (String × String))
    (nv : String × String) (post : List (String × String))
    (acc : List (String × PyDict)) (h : mssqlAborts env nv) :
    mssqlLoop env (pre ++ nv :: post) acc = mssqlLoop env pre acc := by
  obtain ⟨name, instId⟩ := nv
  simp only [mssqlAborts] at h
  induction pre generalizing acc with
  | nil =>
    rw [List.nil_append]
    show mssqlLoop env ((name, instId) :: post) acc = mssqlLoop env [] acc
    unfold mssqlLoop
    rcases h with ⟨e, he, hne⟩ | ⟨ver, e, hv, hp, hne⟩
    · rw [he]
      cases e <;> first | exact absurd rfl hne | rfl
    · rw [hv, hp]
      cases e <;> first | exact absurd rfl hne | rfl
  | cons y ys ih =>
    obtain ⟨yn, yid⟩ := y
    rw [List.cons_append]
    unfold mssqlLoop
    cases hv2 : env.mssqlCurrentVersion yid with
    | ok ver2 =>
      cases hp2 : env.mssqlDataRoot yid with
      | ok path2 => exact ih (dictInsert acc (mssqlKey ver2 yn) (mssqlRec ver2 path2))
      | error e2 => cases e2 <;> first | exact ih acc | rfl
    | error e2 => cases e2 <;> first | exact ih acc | rfl

theorem mysqlLoop_abort (env : ScanEnv) (pre : List SvcEntry) (s : SvcEntry)
    (post : List SvcEntry) (acc : List (String × PyDict)) (h : mysqlAborts s) :
    mysqlLoop env (pre ++ s :: post) acc = mysqlLoop env pre acc := by
  obtain ⟨hname, hrest⟩ := h
  induction pre generalizing acc with
  | nil =>
    rw [List.nil_append]
    show mysqlLoop env (s :: post) acc = mysqlLoop env [] acc
    unfold mysqlLoop
    rw [hname]
    simp only [if_true]
    rcases hrest with ⟨e, he, hne1, hne2⟩ | ⟨dn, hdn, e, he, hne1, hne2⟩
    · rw [he]
      cases e <;> first | exact absurd rfl hne1 | exact absurd rfl hne2 | rfl
    · rw [hdn, he]
      cases e <;> first | exact absurd rfl hne1 | exact absurd rfl hne2 | rfl
  | cons y ys ih =>
    rw [List.cons_append]
    unfold mysqlLoop
    by_cases hy : strStartsWith (strToLower y.name) "mysql" = true
    · simp only [hy, if_true]
      cases y.display_name with
      | ok dn2 =>
        cases y.binpath with
        | ok bp2 => exact ih _
        | error e2 => cases e2 <;> first | exact ih acc | rfl
      | error e2 => cases e2 <;> first | exact ih acc | rfl
    · simp only [Bool.not_eq_true] at hy
      simp only [hy, Bool.false_eq_true, if_false]
      exact ih acc

theorem postgresLoop_abort (env : ScanEnv) (pre : List SvcEntry) (s : SvcEntry)
    (post : List SvcEntry) (acc : List (String × PyDict)) (h : postgresAborts s) :
    postgresLoop env (pre ++ s :: post) acc = postgresLoop env pre acc := by
  obtain ⟨hname, hrest⟩ := h
  induction pre generalizing acc with
  | nil =>
    rw [List.nil_append]
    show postgresLoop env (s :: post) acc = postgresLoop env [] acc
    unfold postgresLoop
    rw [hname]
    simp only [if_true]
    rcases hrest with ⟨e, he, hne1, hne2⟩ | ⟨dn, hdn, e, he, hne1, hne2⟩
    · rw [he]
      cases e <;> first | exact absurd rfl hne1 | exact absurd rfl hne2 | rfl
    · rw [hdn, he]
      cases e <;> first | exact absurd rfl hne1 | exact absurd rfl hne2 | rfl
  | cons y ys ih =>
    rw [List.cons_append]
    unfold postgresLoop
    by_cases hy : strStartsWith (strToLower y.name) "postgresql" = true
    · simp only [hy, if_true]
      cases y.display_name with
      | ok dn2 =>
        cases y.binpath with
        | ok bp2 => exact ih _
        | error e2 => cases e2 <;> first | exact ih acc | rfl
      | error e2 => cases e2 <;> first | exact ih acc | rfl
    · simp only [Bool.not_eq_true] at hy
      simp only [hy, Bool.false_eq_true, if_false]
      exact ih acc

theorem detect_dotnet_fnf (env : ScanEnv)
    (h : env.dotnetRun = Except.error PyExc.fileNotFound) :
    detect_dotnet_core env = Except.ok [] := by
  unfold detect_dotnet_core
  rw [h]

theorem detect_dotnet_err {env : ScanEnv} {e : PyExc}
    (h : detect_dotnet_core env = Except.error e) :
    env.dotnetRun = Except.error e ∧ e ≠ PyExc.fileNotFound := by
  unfold detect_dotnet_core at h
  cases hr : env.dotnetRun with
  | ok p =>
    obtain ⟨rc, out⟩ := p
    rw [hr] at h
    by_cases hrc : rc = 0 <;> simp [hrc] at h
  | error e2 =>
    rw [hr] at h
    cases e2 with
    | fileNotFound => exact absurd h (by simp)
    | accessDenied =>
      injection h with h2
      subst h2
      exact ⟨rfl, by decide⟩
    | noSuchProcess =>
      injection h with h2
      subst h2
      exact ⟨rfl, by decide⟩
    | timeoutExpired =>
      injection h with h2
      subst h2
      exact ⟨rfl, by decide⟩
    | permissionDenied =>
      injection h with h2
      subst h2
      exact ⟨rfl, by decide⟩
    | osFailure =>
      injection h with h2
      subst h2
      exact ⟨rfl, by decide⟩
    | otherExc =>
      injection h with h2
      subst h2
      exact ⟨rfl, by decide⟩

theorem detect_dotnet_ok (env : ScanEnv) (rc : Int) (out : String)
    (h : env.dotnetRun = Except.ok (rc, out)) :
    ∃ m, detect_dotnet_core env = Except.ok m := by
  unfold detect_dotnet_core
  rw [h]
  exact ⟨_, rfl⟩

/-- C5 (amended): the Java, MSSQL, MySQL and PostgreSQL detectors catch
every exception raised by their probes — a failing top-level probe yields
the empty map and a failing per-entry probe (beyond the `continue` cases of
their inner handlers) ends the loop with the map accumulated so far — but
`detect_dotnet_core` catches only `FileNotFoundError` (yielding the empty
map): any other exception of the `dotnet` CLI query propagates out of the
detector. -/
theorem c5_detector_error_handling :
    (∀ env e, env.javaRegistry = Except.error e → detect_java_installations env = []) ∧
    (∀ env pre v post acc, javaAborts env v →
      javaLoop env (pre ++ v :: post) acc = javaLoop env pre acc) ∧
    (∀ env e, env.mssqlInstances = Except.error e →
      detect_sql_server_instances env = []) ∧
    (∀ env pre nv post acc, mssqlAborts env nv →
      mssqlLoop env (pre ++ nv :: post) acc = mssqlLoop env pre acc) ∧
    (∀ env e, env.services = Except.error e →
      detect_mysql_instances env = [] ∧ detect_postgresql_instances env = []) ∧
    (∀ env pre s post acc, mysqlAborts s →
      mysqlLoop env (pre ++ s :: post) acc = mysqlLoop env pre acc) ∧
    (∀ env pre s post acc, postgresAborts s →
      postgresLoop env (pre ++ s :: post) acc = postgresLoop env pre acc) ∧
    (∀ env, env.dotnetRun = Except.error PyExc.fileNotFound →
      detect_dotnet_core env = Except.ok []) ∧
    (∀ env e, detect_dotnet_core env = Except.error e →
      env.dotnetRun = Except.error e ∧ e ≠ PyExc.fileNotFound) ∧
    (∀ env rc out, env.dotnetRun = Except.ok (rc, out) →
      ∃ m, detect_dotnet_core env = Except.ok m) := by
  refine ⟨?_, ?_, ?_, ?_, ?_, ?_, ?_, detect_dotnet_fnf, ?_, detect_dotnet_ok⟩
  · intro env e h
    unfold detect_java_installations
    rw [h]
  · intro env pre v post acc h
    exact javaLoop_abort env pre v post acc h
  · intro env e h
    unfold detect_sql_server_instances
    rw [h]
  · intro env pre nv post acc h
    exact mssqlLoop_abort env pre nv post acc h
  · intro env e h
    constructor
    · unfold detect_mysql_instances
      rw [h]
    · unfold detect_postgresql_instances
      rw [h]
  · intro env pre s post acc h
    exact mysqlLoop_abort env pre s post acc h
  · intro env pre s post acc h
    exact postgresLoop_abort env pre s post acc h
  · intro env e h
    exact detect_dotnet_err h

/-- C5 counterexample to the claim as stated: a `TimeoutExpired` from the
`dotnet` CLI probe is not caught inside `detect_dotnet_core`; it escapes
the detector and aborts the whole scan. -/
theorem c5_detector_error_handling_counterexample :
    detect_dotnet_core envTimeout = Except.error PyExc.timeoutExpired ∧
    scan_all envTimeout initState = Except.error PyExc.timeoutExpired ∧
    ¬ ∃ m, detect_dotnet_core envTimeout = Except.ok m := by
  refine ⟨rfl, rfl, ?_⟩
  rintro ⟨m, hm⟩
  rw [show detect_dotnet_core envTimeout = Except.error PyExc.timeoutExpired from rfl] at hm
  exact Except.noConfusion hm

/-- C5 witness: each component of the amended claim at a concrete input. -/
theorem c5_detector_error_handling_witness :
    detect_java_installations envTimeout = [] ∧
    javaLoop envJavaMid ["1.8", "bad", "9"] [] = javaLoop envJavaMid ["1.8"] [] ∧
    detect_sql_server_instances envEmpty = [] ∧
    mssqlLoop envMssqlMid [("GOOD", "MSSQL15.GOOD"), ("BAD", "MSSQL12.BAD")] [] =
      mssqlLoop envMssqlMid [("GOOD", "MSSQL15.GOOD")] [] ∧
    (detect_mysql_instances envEmpty = [] ∧ detect_postgresql_instances envEmpty = []) ∧
    mysqlLoop envSvc [svcMysqlGood, svcMysqlBad, svcPostgresBad] [] =
      mysqlLoop envSvc [svcMysqlGood] [] ∧
    postgresLoop envSvc [svcMysqlGood, svcMysqlBad, svcPostgresBad] [] =
      postgresLoop envSvc [svcMysqlGood, svcMysqlBad] [] ∧
    detect_dotnet_core envEmpty = Except.ok [] ∧
    (envTimeout.dotnetRun = Except.error PyExc.timeoutExpired ∧
      PyExc.timeoutExpired ≠ PyExc.fileNotFound) ∧
    (∃ m, detect_dotnet_core envDotnetOk = Except.ok m) := by
  refine ⟨c5_detector_error_handling.1 envTimeout PyExc.otherExc rfl, ?_, ?_, ?_, ?_, ?_,
    ?_, ?_, ?_, ?_⟩
  · exact c5_detector_error_handling.2.1 envJavaMid ["1.8"] "bad" ["9"] []
      ⟨PyExc.permissionDenied, rfl, by decide⟩
  · exact c5_detector_error_handling.2.2.1 envEmpty PyExc.otherExc rfl
  · exact c5_detector_error_handling.2.2.2.1 envMssqlMid [("GOOD", "MSSQL15.GOOD")]
      ("BAD", "MSSQL12.BAD") [] [] (Or.inl ⟨PyExc.permissionDenied, rfl, by decide⟩)
  · exact c5_detector_error_handling.2.2.2.2.1 envEmpty PyExc.otherExc rfl
  · exact c5_detector_error_handling.2.2.2.2.2.1 envSvc [svcMysqlGood] svcMysqlBad
      [svcPostgresBad] [] ⟨by decide, Or.inl ⟨PyExc.osFailure, rfl, by decide, by decide⟩⟩
  · exact c5_detector_error_handling.2.2.2.2.2.2.1 envSvc [svcMysqlGood, svcMysqlBad]
      svcPostgresBad [] []
      ⟨by decide, Or.inr ⟨"PostgreSQL 14 Server", rfl,
        PyExc.osFailure, rfl, by decide, by decide⟩⟩
  · exact c5_detector_error_handling.2.2.2.2.2.2.2.1 envEmpty rfl
  · exact c5_detector_error_handling.2.2.2.2.2.2.2.2.1 envTimeout PyExc.timeoutExpired rfl
  · exact c5_detector_error_handling.2.2.2.2.2.2.2.2.2 envDotnetOk 0
      "Microsoft.NETCore.App 6.0.16 [C:\\pf\\dotnet]" rfl
